import Mathlib

/-!
Shallow embedding of the okies-backend ledger / withdrawal core
(apps/api/gift_handlers.go, admin_topup.go, withdrawal_handlers.go,
webhook_handlers.go and the SQL schema in infra/migrations).

Modelling conventions:
* Database rows are Lean structures held in lists inside a single state
  `St`; a committed handler invocation is a function `St → ... → Out`
  returning the response and the post-commit state (the Go handlers run
  inside one SQL transaction that either commits wholly or rolls back).
* Go `int64` amounts are `Int`; the handlers reject `amount <= 0` before
  any write, exactly as the Go decode checks do.  Go integer division
  and remainder truncate toward zero, so they are `Int.tdiv` / `Int.tmod`.
* UUID ids of transactions and withdrawals are modelled as the `Nat`
  counters `nextTxId` / `nextWId` (fresh-per-insert, as UUIDs are).
  Wallet and user ids stay `String`, since `sort.Strings` compares them
  lexicographically (ids are ASCII UUID strings, where Lean's character
  order and Go's byte order agree).
* The `Idempotency-Key` header resolution (trim, or a fresh UUID when the
  header is absent) is done by the caller of the model; the handler
  receives the resolved key string.
* `SELECT ... FOR UPDATE` row locking serializes the handlers; the model
  is sequential, and each `Out` records in `locked` the wallet-id list
  the handler locked, in the order the code built it.
-/

namespace Okies

/-- Direction of a ledger entry (`ledger_entries.direction`,
CHECK (direction IN ('debit','credit'))). -/
inductive Dir
| debit
| credit
deriving DecidableEq, Repr

/-- One row of `ledger_entries`. -/
structure LedgerEntry where
  txId : Nat
  walletId : String
  dir : Dir
  amount : Int
deriving DecidableEq, Repr

/-- One row of `transactions`; `idemKey` is the optional unique
`idempotency_key`. -/
structure Transaction where
  id : Nat
  idemKey : Option String
  kind : String
  amount : Int
deriving DecidableEq, Repr

/-- Withdrawal status values used by the handlers: 'pending', 'approved',
'rejected' (reject path), 'paid' and 'failed' (webhook path). -/
inductive WStatus
| pending
| approved
| rejected
| paid
| failed
deriving DecidableEq, Repr

/-- One row of `withdrawals`; `txId` links to the hold transaction. -/
structure Withdrawal where
  id : Nat
  userId : String
  amount : Int
  status : WStatus
  txId : Nat
deriving DecidableEq, Repr

/-- One row of `payout_transfers` (reference is UNIQUE). -/
structure PayoutTransfer where
  withdrawalId : Nat
  reference : String
  amount : Int
  status : String
deriving DecidableEq, Repr

/-- One row of `wallets` (id is the PRIMARY KEY; one wallet per user). -/
structure Wallet where
  id : String
  userId : String
deriving DecidableEq, Repr

/-- The persistent state the five handlers read and write.  `sysUserId`
is the id of the `system@okies.local` user (migration 0006); `destUsers`
is the set of user ids having an active `payout_destinations` row. -/
structure St where
  wallets : List Wallet
  sysUserId : String
  destUsers : List String
  transactions : List Transaction
  entries : List LedgerEntry
  withdrawals : List Withdrawal
  transfers : List PayoutTransfer
  nextTxId : Nat
  nextWId : Nat
deriving DecidableEq, Repr

/-- `SELECT id FROM wallets WHERE user_id=$1` (QueryRow: first row). -/
def lookupWallet (st : St) (uid : String) : Option String :=
  (st.wallets.find? (fun (w : Wallet) => decide (w.userId = uid))).map (fun w => w.id)

/-- `SELECT id FROM transactions WHERE idempotency_key=$1`. -/
def findTxByKey (st : St) (k : String) : Option Transaction :=
  st.transactions.find? (fun t => decide (t.idemKey = some k))

/-- `SELECT ... FROM withdrawals WHERE id=$1`. -/
def findWithdrawal (st : St) (i : Nat) : Option Withdrawal :=
  st.withdrawals.find? (fun (w : Withdrawal) => decide (w.id = i))

/-- `SELECT reference FROM payout_transfers WHERE withdrawal_id=$1`. -/
def findTransferByWd (st : St) (i : Nat) : Option PayoutTransfer :=
  st.transfers.find? (fun (p : PayoutTransfer) => decide (p.withdrawalId = i))

/-- Contribution of one ledger entry to the balance query
`SUM(CASE WHEN direction='credit' THEN amount ELSE -amount END)`
restricted to `wallet_id = w`. -/
def entryDelta (w : String) (e : LedgerEntry) : Int :=
  if e.walletId = w then (if e.dir = Dir.credit then e.amount else -e.amount) else 0

/-- Balance of wallet `w` derived from an entry list. -/
def balanceE (es : List LedgerEntry) (w : String) : Int :=
  (es.map (entryDelta w)).sum

/-- Derived balance of wallet `w` (the Balance Resolver query used by the
gift and withdrawal handlers and by `GET /v1/wallet`). -/
def balance (st : St) (w : String) : Int :=
  balanceE st.entries w

/-- The two-element slice each handler builds and passes through Go's
`sort.Strings` before `SELECT id FROM wallets WHERE id = ANY($1) FOR UPDATE`. -/
def lockWallets (a b : String) : List String :=
  if a ≤ b then [a, b] else [b, a]

/-- The `error.code` strings the handlers return through `httpError`. -/
inductive HErr
| invalidRequest
| cannotGiftSelf
| walletNotFound
| recipientWalletNotFound
| amountTooLarge
| targetWalletNotFound
| invalidTargetWallet
| systemWalletMissing
| insufficientFunds
| withdrawalNotFound
| alreadyProcessed
| payoutDestinationMissing
| amountNotWholeNaira
| flutterwaveError
| notFoundOrAlreadyProcessed
deriving DecidableEq, Repr

/-- Success payloads of the handlers (ids plus the `status` string of the
JSON response). -/
inductive Resp
| gift (txId : Nat) (status : String)
| topup (txId : Nat) (status : String)
| wdr (wId : Nat) (status : String)
| approve (wId : Nat) (status : String) (reference : String)
| reject (wId : Nat) (status : String)
deriving DecidableEq, Repr

/-- Outcome alternative: an `httpError` code or a success payload. -/
inductive Res
| err (e : HErr)
| ok (r : Resp)
deriving DecidableEq, Repr

/-- Result of one handler invocation: response, the wallet ids locked (in
lock order, empty when the handler returned before locking), the
major-unit amount sent to the external provider (approve only), and the
post-commit state. -/
structure Out where
  res : Res
  locked : List String
  sentNaira : Option Int
  st : St
deriving DecidableEq, Repr

/-- apps/api/gift_handlers.go `CreateGift`.  Inputs: authenticated user,
request body (recipient, amount) and the resolved idempotency key. -/
def CreateGift (st : St) (uid recip : String) (amount : Int) (idem : String) : Out :=
  if amount ≤ 0 ∨ recip = "" then ⟨Res.err HErr.invalidRequest, [], none, st⟩
  else if recip = uid then ⟨Res.err HErr.cannotGiftSelf, [], none, st⟩
  else
    match lookupWallet st uid with
    | none => ⟨Res.err HErr.walletNotFound, [], none, st⟩
    | some senderW =>
      match lookupWallet st recip with
      | none => ⟨Res.err HErr.recipientWalletNotFound, [], none, st⟩
      | some recipW =>
        let locked := lockWallets senderW recipW
        match findTxByKey st idem with
        | some t => ⟨Res.ok (Resp.gift t.id "succeeded"), locked, none, st⟩
        | none =>
          if balance st senderW < amount then
            ⟨Res.err HErr.insufficientFunds, locked, none, st⟩
          else
            let txId := st.nextTxId
            ⟨Res.ok (Resp.gift txId "succeeded"), locked, none,
             { st with
               transactions := st.transactions ++ [⟨txId, some idem, "gift", amount⟩],
               entries := st.entries ++
                 [⟨txId, senderW, Dir.debit, amount⟩, ⟨txId, recipW, Dir.credit, amount⟩],
               nextTxId := st.nextTxId + 1 }⟩

/-- apps/api/admin_topup.go `AdminTopup` (the revision with the
₦5,000,000 guardrail and the `invalid_target_wallet` check). -/
def AdminTopup (st : St) (targetUser : String) (amount : Int) (idem : String) : Out :=
  if targetUser = "" ∨ amount ≤ 0 then ⟨Res.err HErr.invalidRequest, [], none, st⟩
  else if amount > 500000000 then ⟨Res.err HErr.amountTooLarge, [], none, st⟩
  else
    match lookupWallet st targetUser with
    | none => ⟨Res.err HErr.targetWalletNotFound, [], none, st⟩
    | some userW =>
      match lookupWallet st st.sysUserId with
      | none => ⟨Res.err HErr.systemWalletMissing, [], none, st⟩
      | some sysW =>
        if userW = sysW then ⟨Res.err HErr.invalidTargetWallet, [], none, st⟩
        else
          let locked := lockWallets userW sysW
          match findTxByKey st idem with
          | some t => ⟨Res.ok (Resp.topup t.id "succeeded"), locked, none, st⟩
          | none =>
            let txId := st.nextTxId
            ⟨Res.ok (Resp.topup txId "succeeded"), locked, none,
             { st with
               transactions := st.transactions ++ [⟨txId, some idem, "topup", amount⟩],
               entries := st.entries ++
                 [⟨txId, sysW, Dir.debit, amount⟩, ⟨txId, userW, Dir.credit, amount⟩],
               nextTxId := st.nextTxId + 1 }⟩

/-- apps/api/withdrawal_handlers.go `CreateWithdrawal`.  Note: this
handler reads no Idempotency-Key and the hold transaction is inserted
without an idempotency_key. -/
def CreateWithdrawal (st : St) (uid : String) (amount : Int) : Out :=
  if amount ≤ 0 then ⟨Res.err HErr.invalidRequest, [], none, st⟩
  else
    match lookupWallet st uid with
    | none => ⟨Res.err HErr.walletNotFound, [], none, st⟩
    | some userW =>
      match lookupWallet st st.sysUserId with
      | none => ⟨Res.err HErr.systemWalletMissing, [], none, st⟩
      | some sysW =>
        let locked := lockWallets userW sysW
        if balance st userW < amount then
          ⟨Res.err HErr.insufficientFunds, locked, none, st⟩
        else
          let txId := st.nextTxId
          let wId := st.nextWId
          ⟨Res.ok (Resp.wdr wId "pending"), locked, none,
           { st with
             transactions := st.transactions ++ [⟨txId, none, "withdrawal", amount⟩],
             entries := st.entries ++
               [⟨txId, userW, Dir.debit, amount⟩, ⟨txId, sysW, Dir.credit, amount⟩],
             withdrawals := st.withdrawals ++ [⟨wId, uid, amount, WStatus.pending, txId⟩],
             nextTxId := st.nextTxId + 1,
             nextWId := st.nextWId + 1 }⟩

/-- The stable provider reference `"wd-" + id`. -/
def mkRef (i : Nat) : String :=
  "wd-" ++ toString i

/-- `UPDATE withdrawals SET status='approved' WHERE id=$1 AND status='pending'`. -/
def markApproved (ws : List Withdrawal) (i : Nat) : List Withdrawal :=
  ws.map (fun (w : Withdrawal) =>
    if w.id = i ∧ w.status = WStatus.pending then { w with status := WStatus.approved } else w)

/-- `UPDATE withdrawals SET status='rejected' WHERE id=$1 AND status='pending'`. -/
def markRejected (ws : List Withdrawal) (i : Nat) : List Withdrawal :=
  ws.map (fun (w : Withdrawal) =>
    if w.id = i ∧ w.status = WStatus.pending then { w with status := WStatus.rejected } else w)

/-- The webhook update `UPDATE withdrawals SET status=$s WHERE id=(...) AND
status IN ('approved','pending')`. -/
def markFinal (ws : List Withdrawal) (i : Nat) (s : WStatus) : List Withdrawal :=
  ws.map (fun (w : Withdrawal) =>
    if w.id = i ∧ (w.status = WStatus.approved ∨ w.status = WStatus.pending)
    then { w with status := s } else w)

/-- apps/api/withdrawal_handlers.go `AdminApproveWithdrawal`.
`providerOk` is the outcome of the `flw.do` POST /v3/transfers call;
`sentNaira` records the major-unit amount placed in that request body.
The status update to 'approved' runs on the pool (auto-commit) before the
provider call, so it persists even when the call fails. -/
def AdminApproveWithdrawal (st : St) (i : Nat) (providerOk : Bool) : Out :=
  match findWithdrawal st i with
  | none => ⟨Res.err HErr.withdrawalNotFound, [], none, st⟩
  | some wd =>
    if wd.status ≠ WStatus.pending ∧ wd.status ≠ WStatus.approved then
      ⟨Res.err HErr.alreadyProcessed, [], none, st⟩
    else if ¬ st.destUsers.contains wd.userId then
      ⟨Res.err HErr.payoutDestinationMissing, [], none, st⟩
    else
      match findTransferByWd st i with
      | some p => ⟨Res.ok (Resp.approve i "already_initiated" p.reference), [], none, st⟩
      | none =>
        let st1 :=
          if wd.status = WStatus.pending then
            { st with withdrawals := markApproved st.withdrawals i }
          else st
        if wd.amount.tmod 100 ≠ 0 then
          ⟨Res.err HErr.amountNotWholeNaira, [], none, st1⟩
        else
          let naira := wd.amount.tdiv 100
          let ref := mkRef i
          if providerOk then
            ⟨Res.ok (Resp.approve i "transfer_initiated" ref), [], some naira,
             if st1.transfers.any (fun (p : PayoutTransfer) => decide (p.reference = ref)) then st1
             else { st1 with transfers := st1.transfers ++ [⟨i, ref, wd.amount, "pending"⟩] }⟩
          else
            ⟨Res.err HErr.flutterwaveError, [], some naira, st1⟩

/-- apps/api/withdrawal_handlers.go `AdminRejectWithdrawal`.  The load is
`WHERE id=$1 AND status='pending'`; the reversal inserts the entries in
the SQL order credit-user then debit-system; the status update is
conditional on `status='pending'`. -/
def AdminRejectWithdrawal (st : St) (i : Nat) : Out :=
  match st.withdrawals.find? (fun (w : Withdrawal) => decide (w.id = i ∧ w.status = WStatus.pending)) with
  | none => ⟨Res.err HErr.notFoundOrAlreadyProcessed, [], none, st⟩
  | some wd =>
    match lookupWallet st wd.userId with
    | none => ⟨Res.err HErr.walletNotFound, [], none, st⟩
    | some userW =>
      match lookupWallet st st.sysUserId with
      | none => ⟨Res.err HErr.systemWalletMissing, [], none, st⟩
      | some sysW =>
        let locked := lockWallets userW sysW
        let txId := st.nextTxId
        ⟨Res.ok (Resp.reject i "rejected"), locked, none,
         { st with
           transactions := st.transactions ++ [⟨txId, none, "withdrawal", wd.amount⟩],
           entries := st.entries ++
             [⟨txId, userW, Dir.credit, wd.amount⟩, ⟨txId, sysW, Dir.debit, wd.amount⟩],
           withdrawals := markRejected st.withdrawals i,
           nextTxId := st.nextTxId + 1 }⟩

/-- apps/api/webhook_handlers.go `FlutterwaveWebhook`, after signature
verification and JSON extraction: `rawStatus` is the lower-cased provider
status; the payout transfer keyed by `reference` gets that status, and the
linked withdrawal moves to 'paid' / 'failed' only from 'approved' or
'pending'.  Unmatched or unrecognized statuses change no withdrawal. -/
def FlutterwaveWebhook (st : St) (ref rawStatus : String) : St :=
  if ref = "" then st
  else
    let st1 := { st with transfers := st.transfers.map (fun (p : PayoutTransfer) =>
      if p.reference = ref then { p with status := rawStatus } else p) }
    match st1.transfers.find? (fun (p : PayoutTransfer) => decide (p.reference = ref)) with
    | none => st1
    | some p =>
      if rawStatus = "successful" ∨ rawStatus = "success" ∨ rawStatus = "completed" then
        { st1 with withdrawals := markFinal st1.withdrawals p.withdrawalId WStatus.paid }
      else if rawStatus = "failed" ∨ rawStatus = "error" then
        { st1 with withdrawals := markFinal st1.withdrawals p.withdrawalId WStatus.failed }
      else st1

/-- One committed invocation of a core endpoint. -/
inductive Op
| gift (uid recip : String) (amount : Int) (idem : String)
| topup (targetUser : String) (amount : Int) (idem : String)
| wdrCreate (uid : String) (amount : Int)
| wdrApprove (i : Nat) (providerOk : Bool)
| wdrReject (i : Nat)
| webhook (ref rawStatus : String)

/-- State effect of one committed invocation. -/
def applyOp (st : St) : Op → St
| Op.gift uid recip amount idem => (CreateGift st uid recip amount idem).st
| Op.topup targetUser amount idem => (AdminTopup st targetUser amount idem).st
| Op.wdrCreate uid amount => (CreateWithdrawal st uid amount).st
| Op.wdrApprove i providerOk => (AdminApproveWithdrawal st i providerOk).st
| Op.wdrReject i => (AdminRejectWithdrawal st i).st
| Op.webhook ref rawStatus => FlutterwaveWebhook st ref rawStatus

/-- State after a sequence of committed invocations. -/
def run (st : St) (ops : List Op) : St :=
  ops.foldl applyOp st

end Okies

namespace Okies

/-! ## Well-formedness of the wallet table

`wallets.id` is the PRIMARY KEY, and each user owns at most one wallet
(one row inserted at signup, `ON CONFLICT DO NOTHING`; migration 0006
creates the treasury wallet only if missing). -/

/-- Row keys of the `wallets` table are unique. -/
def WFWallets (st : St) : Prop :=
  (st.wallets.map (fun w => w.id)).Nodup ∧ (st.wallets.map (fun w => w.userId)).Nodup

theorem lookupWallet_mem {st : St} {u wid : String} (h : lookupWallet st u = some wid) :
    ∃ r ∈ st.wallets, r.userId = u ∧ r.id = wid := by
  unfold lookupWallet at h
  rcases Option.map_eq_some'.mp h with ⟨r, hr, hid⟩
  have hp := List.find?_some hr
  exact ⟨r, List.mem_of_find?_eq_some hr, of_decide_eq_true hp, hid⟩

theorem lookupWallet_inj {st : St} (hwf : WFWallets st) {u1 u2 wid : String}
    (h1 : lookupWallet st u1 = some wid) (h2 : lookupWallet st u2 = some wid) :
    u1 = u2 := by
  rcases lookupWallet_mem h1 with ⟨r1, hr1, hu1, hi1⟩
  rcases lookupWallet_mem h2 with ⟨r2, hr2, hu2, hi2⟩
  have : r1 = r2 :=
    List.inj_on_of_nodup_map hwf.1 hr1 hr2 (by rw [hi1, hi2])
  rw [← hu1, ← hu2, this]

/-! ## Balance arithmetic -/

theorem balanceE_append (es l : List LedgerEntry) (w : String) :
    balanceE (es ++ l) w = balanceE es w + balanceE l w := by
  simp [balanceE]

end Okies

namespace Okies

/-- A small concrete state used by witnesses: two users `u1`, `u2`, the
system user `sys`, their wallets, `u1` funded with 1000 kobo by a
committed top-up with idempotency key `k0`, and an active payout
destination for `u1`. -/
def demoSt : St where
  wallets := [⟨"wa", "u1"⟩, ⟨"wb", "u2"⟩, ⟨"wz", "sys"⟩]
  sysUserId := "sys"
  destUsers := ["u1"]
  transactions := [⟨0, some "k0", "topup", 1000⟩]
  entries := [⟨0, "wz", Dir.debit, 1000⟩, ⟨0, "wa", Dir.credit, 1000⟩]
  withdrawals := []
  transfers := []
  nextTxId := 1
  nextWId := 0

/-- C9: `AdminTopup` rejects any amount above 500,000,000 kobo with
`amount_too_large`, before taking any wallet lock and without touching
the state (no transaction and no ledger entries are written). -/
theorem c9_topup_amount_cap (st : St) (target : String) (a : Int) (k : String)
    (hne : target ≠ "") (hcap : 500000000 < a) :
    AdminTopup st target a k = ⟨Res.err HErr.amountTooLarge, [], none, st⟩ := by
  have h0 : ¬ (target = "" ∨ a ≤ 0) := by
    push_neg
    exact ⟨hne, by omega⟩
  simp [AdminTopup, h0, hcap]

/-- Witness for C9 at a concrete over-cap top-up request. -/
theorem c9_topup_amount_cap_witness :
    AdminTopup demoSt "u2" 500000001 "k1" =
      ⟨Res.err HErr.amountTooLarge, [], none, demoSt⟩ :=
  c9_topup_amount_cap demoSt "u2" 500000001 "k1" (by decide) (by decide)

end Okies

namespace Okies

/-- C6: every multi-wallet operation (gift, admin top-up, withdrawal
create, withdrawal reject) locks exactly the wallet pair it touches in
the lexicographically sorted order produced by `sort.Strings`; the order
is a function of the wallet set only (symmetric in the two roles), so two
operations on the same pair always acquire locks in the same order. -/
theorem c6_deterministic_lock_order :
    (∀ a b : String, lockWallets a b = lockWallets b a) ∧
    (∀ a b : String, List.Sorted (fun x y : String => x ≤ y) (lockWallets a b)) ∧
    (∀ a b : String, (lockWallets a b).Perm [a, b]) ∧
    (∀ st uid recip amount idem sw rw,
      lookupWallet st uid = some sw → lookupWallet st recip = some rw →
      (CreateGift st uid recip amount idem).locked = [] ∨
      (CreateGift st uid recip amount idem).locked = lockWallets sw rw) ∧
    (∀ st target amount idem uw sw,
      lookupWallet st target = some uw → lookupWallet st st.sysUserId = some sw →
      (AdminTopup st target amount idem).locked = [] ∨
      (AdminTopup st target amount idem).locked = lockWallets uw sw) ∧
    (∀ st uid amount uw sw,
      lookupWallet st uid = some uw → lookupWallet st st.sysUserId = some sw →
      (CreateWithdrawal st uid amount).locked = [] ∨
      (CreateWithdrawal st uid amount).locked = lockWallets uw sw) ∧
    (∀ st i wd uw sw,
      st.withdrawals.find?
        (fun (w : Withdrawal) => decide (w.id = i ∧ w.status = WStatus.pending)) = some wd →
      lookupWallet st wd.userId = some uw → lookupWallet st st.sysUserId = some sw →
      (AdminRejectWithdrawal st i).locked = lockWallets uw sw) := by
  refine ⟨?_, ?_, ?_, ?_, ?_, ?_, ?_⟩
  · intro a b
    unfold lockWallets
    by_cases h1 : a ≤ b <;> by_cases h2 : b ≤ a
    · simp [h1, h2, le_antisymm h1 h2]
    · simp [h1, h2]
    · simp [h1, h2]
    · exact absurd (le_total a b) (by simp [h1, h2])
  · intro a b
    unfold lockWallets
    by_cases h1 : a ≤ b
    · simp only [h1, if_true]
      exact List.sorted_cons.mpr
        ⟨by intro y hy; rw [List.mem_singleton] at hy; subst hy; exact h1,
         List.sorted_singleton b⟩
    · simp only [h1, if_false]
      exact List.sorted_cons.mpr
        ⟨by intro y hy; rw [List.mem_singleton] at hy; subst hy; exact le_of_not_le h1,
         List.sorted_singleton a⟩
  · intro a b
    unfold lockWallets
    by_cases h1 : a ≤ b
    · simp [h1]
    · simp only [h1, if_false]
      exact List.Perm.swap a b []
  · intro st uid recip amount idem sw rw h1 h2
    unfold CreateGift
    simp only [h1, h2]
    repeat' split
    all_goals first | (left; rfl) | (right; rfl)
  · intro st target amount idem uw sw h1 h2
    unfold AdminTopup
    simp only [h1, h2]
    repeat' split
    all_goals first | (left; rfl) | (right; rfl)
  · intro st uid amount uw sw h1 h2
    unfold CreateWithdrawal
    simp only [h1, h2]
    repeat' split
    all_goals first | (left; rfl) | (right; rfl)
  · intro st i wd uw sw h0 h1 h2
    unfold AdminRejectWithdrawal
    simp only [h0, h1, h2]

/-- Witness for C6: a concrete reject after a concrete withdrawal
creation locks the same sorted pair as the creation did. -/
theorem c6_deterministic_lock_order_witness :
    (CreateWithdrawal demoSt "u1" 400).locked = [] ∨
    (CreateWithdrawal demoSt "u1" 400).locked = lockWallets "wa" "wz" :=
  c6_deterministic_lock_order.2.2.2.2.2.1 demoSt "u1" 400 "wa" "wz"
    (by decide) (by decide)

end Okies

namespace Okies

/-! ## find? over status-update maps -/

theorem find?_map_eq_map_find? {α : Type} (g : α → α) (p : α → Bool)
    (hp : ∀ x, p (g x) = p x) (l : List α) :
    (l.map g).find? p = (l.find? p).map g := by
  induction l with
  | nil => rfl
  | cons x l ih =>
    by_cases h : p x = true
    · rw [List.map_cons, List.find?_cons_of_pos _ (by rw [hp]; exact h),
        List.find?_cons_of_pos _ h, Option.map_some']
    · rw [List.map_cons, List.find?_cons_of_neg _ (by rw [hp]; simpa using h),
        List.find?_cons_of_neg _ (by simpa using h), ih]

theorem find?_markApproved {ws : List Withdrawal} {i : Nat} {wd : Withdrawal}
    (hf : ws.find? (fun (w : Withdrawal) => decide (w.id = i)) = some wd) :
    (markApproved ws i).find? (fun (w : Withdrawal) => decide (w.id = i)) =
      some (if wd.status = WStatus.pending
            then { wd with status := WStatus.approved } else wd) := by
  have hp := List.find?_some hf
  have hid : wd.id = i := of_decide_eq_true hp
  rw [markApproved, find?_map_eq_map_find? _ _
      (by intro x
          by_cases hx : x.id = i ∧ x.status = WStatus.pending <;> simp [hx]),
    hf, Option.map_some']
  by_cases hp : wd.status = WStatus.pending <;> simp [hid, hp]

theorem find?_pending_markRejected (ws : List Withdrawal) (i : Nat) :
    (markRejected ws i).find?
      (fun (w : Withdrawal) => decide (w.id = i ∧ w.status = WStatus.pending)) = none := by
  rw [List.find?_eq_none]
  intro w hw
  rcases List.mem_map.mp hw with ⟨x, hx, rfl⟩
  by_cases hc : x.id = i ∧ x.status = WStatus.pending <;> simp [hc]

/-- Characterization of `AdminApproveWithdrawal` once the withdrawal is
found in an approvable status, a payout destination exists and no payout
transfer was initiated yet. -/
theorem AdminApprove_spec {st : St} {i : Nat} {wd : Withdrawal} (ok : Bool)
    (hf : findWithdrawal st i = some wd)
    (hst : wd.status = WStatus.pending ∨ wd.status = WStatus.approved)
    (hdest : st.destUsers.contains wd.userId = true)
    (htr : findTransferByWd st i = none) :
    AdminApproveWithdrawal st i ok =
      (let st1 := if wd.status = WStatus.pending
        then { st with withdrawals := markApproved st.withdrawals i } else st
       if wd.amount.tmod 100 ≠ 0 then
         ⟨Res.err HErr.amountNotWholeNaira, [], none, st1⟩
       else if ok then
         ⟨Res.ok (Resp.approve i "transfer_initiated" (mkRef i)), [],
          some (wd.amount.tdiv 100),
          if st1.transfers.any (fun (p : PayoutTransfer) => decide (p.reference = mkRef i))
          then st1
          else { st1 with transfers := st1.transfers ++ [⟨i, mkRef i, wd.amount, "pending"⟩] }⟩
       else
         ⟨Res.err HErr.flutterwaveError, [], some (wd.amount.tdiv 100), st1⟩) := by
  have hne : ¬ (wd.status ≠ WStatus.pending ∧ wd.status ≠ WStatus.approved) := by
    rcases hst with h | h <;> simp [h]
  unfold AdminApproveWithdrawal
  rw [hf]
  simp only [hne, if_false, hdest, Bool.not_true, htr]
  by_cases hmod : wd.amount.tmod 100 ≠ 0 <;> cases ok <;> simp [hmod]

end Okies

namespace Okies

/-- C8: on withdrawal approval, an amount in kobo that is not an exact
multiple of 100 is rejected with `amount_not_whole_naira` — nothing is
sent to the provider and no ledger row or payout transfer is written —
and when it converts cleanly, the amount placed in the provider request
body is exactly `amount / 100` (Go integer division, no rounding). -/
theorem c8_whole_naira_conversion (st : St) (i : Nat) (wd : Withdrawal) (ok : Bool)
    (hf : findWithdrawal st i = some wd)
    (hst : wd.status = WStatus.pending ∨ wd.status = WStatus.approved)
    (hdest : st.destUsers.contains wd.userId = true)
    (htr : findTransferByWd st i = none) :
    (wd.amount.tmod 100 ≠ 0 →
      (AdminApproveWithdrawal st i ok).res = Res.err HErr.amountNotWholeNaira ∧
      (AdminApproveWithdrawal st i ok).sentNaira = none ∧
      (AdminApproveWithdrawal st i ok).st.transactions = st.transactions ∧
      (AdminApproveWithdrawal st i ok).st.entries = st.entries ∧
      (AdminApproveWithdrawal st i ok).st.transfers = st.transfers) ∧
    (wd.amount.tmod 100 = 0 →
      (AdminApproveWithdrawal st i ok).sentNaira = some (wd.amount.tdiv 100)) := by
  rw [AdminApprove_spec ok hf hst hdest htr]
  constructor
  · intro h
    by_cases hpend : wd.status = WStatus.pending <;> simp [h, hpend]
  · intro h
    cases ok <;> simp [h]

/-- Witness for C8 at a pending 12345-kobo withdrawal (not whole Naira)
of user `u1`, who has an active payout destination. -/
theorem c8_whole_naira_conversion_witness :
    let stw := { demoSt with withdrawals := [⟨0, "u1", 12345, WStatus.pending, 0⟩] }
    ((12345 : Int).tmod 100 ≠ 0 →
      (AdminApproveWithdrawal stw 0 true).res = Res.err HErr.amountNotWholeNaira ∧
      (AdminApproveWithdrawal stw 0 true).sentNaira = none ∧
      (AdminApproveWithdrawal stw 0 true).st.transactions = stw.transactions ∧
      (AdminApproveWithdrawal stw 0 true).st.entries = stw.entries ∧
      (AdminApproveWithdrawal stw 0 true).st.transfers = stw.transfers) ∧
    ((12345 : Int).tmod 100 = 0 →
      (AdminApproveWithdrawal stw 0 true).sentNaira = some ((12345 : Int).tdiv 100)) :=
  c8_whole_naira_conversion _ 0 ⟨0, "u1", 12345, WStatus.pending, 0⟩ true
    (by decide) (Or.inl rfl) (by decide) (by decide)

end Okies

namespace Okies

/-- C7: when the provider call fails, the hold is not released: no
reversal or any other ledger row is posted, no payout transfer row is
written, the withdrawal is left in `approved`, and a later retry of the
approval initiates the transfer — no fresh withdrawal is needed. -/
theorem c7_provider_failure_keeps_hold (st : St) (i : Nat) (wd : Withdrawal)
    (hf : findWithdrawal st i = some wd)
    (hst : wd.status = WStatus.pending ∨ wd.status = WStatus.approved)
    (hdest : st.destUsers.contains wd.userId = true)
    (htr : findTransferByWd st i = none)
    (hmod : wd.amount.tmod 100 = 0) :
    (AdminApproveWithdrawal st i false).res = Res.err HErr.flutterwaveError ∧
    (AdminApproveWithdrawal st i false).st.transactions = st.transactions ∧
    (AdminApproveWithdrawal st i false).st.entries = st.entries ∧
    (AdminApproveWithdrawal st i false).st.transfers = st.transfers ∧
    findWithdrawal (AdminApproveWithdrawal st i false).st i =
      some { wd with status := WStatus.approved } ∧
    (AdminApproveWithdrawal (AdminApproveWithdrawal st i false).st i true).res =
      Res.ok (Resp.approve i "transfer_initiated" (mkRef i)) := by
  rw [AdminApprove_spec false hf hst hdest htr]
  simp only [hmod, ne_eq, not_true_eq_false, if_false, Bool.false_eq_true,
    not_false_eq_true, if_true]
  by_cases hpend : wd.status = WStatus.pending
  · simp only [hpend, if_true]
    have hf2 : findWithdrawal
        { st with withdrawals := markApproved st.withdrawals i } i =
        some { wd with status := WStatus.approved } := by
      unfold findWithdrawal at hf ⊢
      rw [show ({ st with withdrawals := markApproved st.withdrawals i } : St).withdrawals
            = markApproved st.withdrawals i from rfl,
        find?_markApproved hf]
      simp [hpend]
    refine ⟨trivial, trivial, trivial, trivial, hf2, ?_⟩
    rw [AdminApprove_spec true hf2 (Or.inr rfl) (by simpa using hdest) (by simpa using htr)]
    simp [hmod]
  · have hap : wd.status = WStatus.approved := by
      rcases hst with h | h
      · exact absurd h hpend
      · exact h
    have heta : { wd with status := WStatus.approved } = wd := by
      cases wd
      simp_all
    simp only [hpend, if_false]
    refine ⟨trivial, trivial, trivial, trivial, by rw [heta]; exact hf, ?_⟩
    rw [AdminApprove_spec true hf hst hdest htr]
    simp [hmod, hpend]

/-- Witness for C7: a pending 400-kobo withdrawal of `u1`; the failed
provider call leaves it approved with the ledger untouched, and the retry
initiates the transfer. -/
theorem c7_provider_failure_keeps_hold_witness :
    let stw := { demoSt with withdrawals := [⟨0, "u1", 400, WStatus.pending, 0⟩] }
    (AdminApproveWithdrawal stw 0 false).res = Res.err HErr.flutterwaveError ∧
    (AdminApproveWithdrawal stw 0 false).st.transactions = stw.transactions ∧
    (AdminApproveWithdrawal stw 0 false).st.entries = stw.entries ∧
    (AdminApproveWithdrawal stw 0 false).st.transfers = stw.transfers ∧
    findWithdrawal (AdminApproveWithdrawal stw 0 false).st 0 =
      some ⟨0, "u1", 400, WStatus.approved, 0⟩ ∧
    (AdminApproveWithdrawal (AdminApproveWithdrawal stw 0 false).st 0 true).res =
      Res.ok (Resp.approve 0 "transfer_initiated" (mkRef 0)) :=
  c7_provider_failure_keeps_hold _ 0 ⟨0, "u1", 400, WStatus.pending, 0⟩
    (by decide) (Or.inl rfl) (by decide) (by decide) (by decide)

end Okies

namespace Okies

/-- C5 counterexample: approving a withdrawal in the terminal state
`rejected` (not succeeded) does not report the current state — it fails
with the conflict error `already_processed`, exactly like approving an
already-succeeded (`paid`) withdrawal does, contradicting the claimed
succeeded-only exception. -/
theorem c5_counterexample :
    AdminApproveWithdrawal
        { demoSt with withdrawals := [⟨0, "u1", 400, WStatus.rejected, 0⟩] } 0 true =
      ⟨Res.err HErr.alreadyProcessed, [], none,
       { demoSt with withdrawals := [⟨0, "u1", 400, WStatus.rejected, 0⟩] }⟩ ∧
    AdminApproveWithdrawal
        { demoSt with withdrawals := [⟨0, "u1", 400, WStatus.paid, 0⟩] } 0 true =
      ⟨Res.err HErr.alreadyProcessed, [], none,
       { demoSt with withdrawals := [⟨0, "u1", 400, WStatus.paid, 0⟩] }⟩ := by
  constructor <;> rfl

/-- C5 (amended): approval proceeds only from `pending` or `approved`;
the `pending → approved` transition happens through the conditional
update keyed on the current status; an already-approved withdrawal with
an initiated transfer reports the current state (`already_initiated`)
without changes; and any withdrawal in a terminal state — `rejected`,
`paid` (succeeded) or `failed` alike — is rejected with the conflict
error `already_processed` and no state change. -/
theorem c5_amended_approve_states (st : St) (i : Nat) (wd : Withdrawal) (ok : Bool)
    (hf : findWithdrawal st i = some wd) :
    (wd.status = WStatus.rejected ∨ wd.status = WStatus.paid ∨ wd.status = WStatus.failed →
      AdminApproveWithdrawal st i ok = ⟨Res.err HErr.alreadyProcessed, [], none, st⟩) ∧
    (∀ p, wd.status = WStatus.approved → st.destUsers.contains wd.userId = true →
      findTransferByWd st i = some p →
      AdminApproveWithdrawal st i ok =
        ⟨Res.ok (Resp.approve i "already_initiated" p.reference), [], none, st⟩) ∧
    (wd.status = WStatus.pending → st.destUsers.contains wd.userId = true →
      findTransferByWd st i = none →
      (AdminApproveWithdrawal st i ok).st.withdrawals = markApproved st.withdrawals i ∧
      findWithdrawal (AdminApproveWithdrawal st i ok).st i =
        some { wd with status := WStatus.approved }) := by
  refine ⟨?_, ?_, ?_⟩
  · intro h
    unfold AdminApproveWithdrawal
    rw [hf]
    rcases h with h | h | h <;> simp [h]
  · intro p hap hdest htr
    have hmem : wd.userId ∈ st.destUsers := by simpa using hdest
    unfold AdminApproveWithdrawal
    rw [hf]
    simp [hap, hmem, htr]
  · intro hpend hdest htr
    rw [AdminApprove_spec ok hf (Or.inl hpend) hdest htr]
    have hwds : ∀ s1 : St, s1.withdrawals = markApproved st.withdrawals i →
        findWithdrawal s1 i = some { wd with status := WStatus.approved } := by
      intro s1 hs1
      unfold findWithdrawal at hf ⊢
      rw [hs1, find?_markApproved hf]
      simp [hpend]
    show ((if wd.amount.tmod 100 ≠ 0 then _ else _ : Out)).st.withdrawals = _ ∧ _
    rw [if_pos hpend]
    by_cases hmod : wd.amount.tmod 100 ≠ 0
    · rw [if_pos hmod]
      exact ⟨rfl, hwds _ rfl⟩
    · rw [if_neg hmod]
      cases ok
      · rw [if_neg (by simp)]
        exact ⟨rfl, hwds _ rfl⟩
      · rw [if_pos rfl]
        split
        · exact ⟨rfl, hwds _ rfl⟩
        · exact ⟨rfl, hwds _ rfl⟩

/-- Witness for C5 (amended) at an already-approved withdrawal with an
initiated transfer, which reports `already_initiated`. -/
theorem c5_amended_approve_states_witness :
    let stw := { demoSt with
      withdrawals := [⟨0, "u1", 400, WStatus.approved, 0⟩],
      transfers := [⟨0, "wd-0", 400, "pending"⟩] }
    AdminApproveWithdrawal stw 0 true =
      ⟨Res.ok (Resp.approve 0 "already_initiated" "wd-0"), [], none, stw⟩ :=
  (c5_amended_approve_states _ 0 ⟨0, "u1", 400, WStatus.approved, 0⟩ true
    (by decide)).2.1 ⟨0, "wd-0", 400, "pending"⟩ rfl (by decide) (by decide)

end Okies

namespace Okies

/-- C10: the idempotency replay check matches on the key alone over the
global `transactions` table: a gift or admin top-up whose resolved
Idempotency-Key equals the key of any previously committed transaction —
of any kind, with any amount, from either endpoint — returns that
transaction's id with status "succeeded" and writes nothing; neither
handler verifies that kind or parameters match. -/
theorem c10_key_only_replay (st : St) (K : String) (t : Transaction)
    (hk : findTxByKey st K = some t) :
    (∀ uid recip a sw rw, ¬ (a ≤ 0 ∨ recip = "") → recip ≠ uid →
      lookupWallet st uid = some sw → lookupWallet st recip = some rw →
      CreateGift st uid recip a K =
        ⟨Res.ok (Resp.gift t.id "succeeded"), lockWallets sw rw, none, st⟩) ∧
    (∀ target a uw sw, ¬ (target = "" ∨ a ≤ 0) → ¬ a > 500000000 →
      lookupWallet st target = some uw → lookupWallet st st.sysUserId = some sw →
      uw ≠ sw →
      AdminTopup st target a K =
        ⟨Res.ok (Resp.topup t.id "succeeded"), lockWallets uw sw, none, st⟩) := by
  constructor
  · intro uid recip a sw rw h0 h1 h2 h3
    unfold CreateGift
    rw [if_neg h0, if_neg h1, h2, h3, hk]
  · intro target a uw sw h0 hcap h2 h3 hne
    unfold AdminTopup
    rw [if_neg h0, if_neg hcap, h2, h3]
    simp [hne, hk]

/-- Witness for C10: `demoSt` holds a committed 1000-kobo `topup`
transaction under key `k0`; a gift request for a different amount (77)
and different parties replays it, returning the top-up's transaction id
as a succeeded gift with no state change. -/
theorem c10_key_only_replay_witness :
    CreateGift demoSt "u1" "u2" 77 "k0" =
      ⟨Res.ok (Resp.gift 0 "succeeded"), lockWallets "wa" "wb", none, demoSt⟩ :=
  (c10_key_only_replay demoSt "k0" ⟨0, some "k0", "topup", 1000⟩ (by decide)).1
    "u1" "u2" 77 "wa" "wb" (by decide) (by decide) (by decide) (by decide)

end Okies

namespace Okies

/-- C2 counterexample: `CreateWithdrawal` reads no Idempotency-Key (any
supplied key is ignored) and its hold transaction carries no key, so two
calls with identical parameters — hence trivially the same idempotency
key — commit two hold transactions and two withdrawals: the second call
reprocesses (returning a new withdrawal id 1) instead of
short-circuiting, and the transaction count rises by two, not one. -/
theorem c2_counterexample :
    (CreateWithdrawal demoSt "u1" 100).res = Res.ok (Resp.wdr 0 "pending") ∧
    (CreateWithdrawal (CreateWithdrawal demoSt "u1" 100).st "u1" 100).res =
      Res.ok (Resp.wdr 1 "pending") ∧
    (CreateWithdrawal (CreateWithdrawal demoSt "u1" 100).st "u1" 100).st.transactions.length
      = demoSt.transactions.length + 2 ∧
    (∀ t ∈ (CreateWithdrawal (CreateWithdrawal demoSt "u1" 100).st "u1" 100).st.transactions,
      t.id ≥ 1 → t.idemKey = none) := by
  refine ⟨by decide, by decide, by decide, by decide⟩

end Okies

namespace Okies

theorem lookupWallet_congr {st st' : St} (h : st'.wallets = st.wallets) (u : String) :
    lookupWallet st' u = lookupWallet st u := by
  unfold lookupWallet
  rw [h]

/-- `CreateGift` on the fresh-key success path. -/
theorem CreateGift_success {st : St} {uid recip : String} {a : Int} {K : String}
    {sw rcpW : String}
    (h0 : ¬ (a ≤ 0 ∨ recip = "")) (h1 : recip ≠ uid)
    (h2 : lookupWallet st uid = some sw) (h3 : lookupWallet st recip = some rcpW)
    (h4 : findTxByKey st K = none) (h5 : ¬ balance st sw < a) :
    CreateGift st uid recip a K =
      ⟨Res.ok (Resp.gift st.nextTxId "succeeded"), lockWallets sw rcpW, none,
       { st with
         transactions := st.transactions ++ [⟨st.nextTxId, some K, "gift", a⟩],
         entries := st.entries ++
           [⟨st.nextTxId, sw, Dir.debit, a⟩, ⟨st.nextTxId, rcpW, Dir.credit, a⟩],
         nextTxId := st.nextTxId + 1 }⟩ := by
  unfold CreateGift
  rw [if_neg h0, if_neg h1, h2, h3]
  simp [h4, h5]

/-- `AdminTopup` on the fresh-key success path. -/
theorem AdminTopup_success {st : St} {target : String} {a : Int} {K : String}
    {uw sw : String}
    (h0 : ¬ (target = "" ∨ a ≤ 0)) (hcap : ¬ a > 500000000)
    (h2 : lookupWallet st target = some uw) (h3 : lookupWallet st st.sysUserId = some sw)
    (hne : uw ≠ sw) (h4 : findTxByKey st K = none) :
    AdminTopup st target a K =
      ⟨Res.ok (Resp.topup st.nextTxId "succeeded"), lockWallets uw sw, none,
       { st with
         transactions := st.transactions ++ [⟨st.nextTxId, some K, "topup", a⟩],
         entries := st.entries ++
           [⟨st.nextTxId, sw, Dir.debit, a⟩, ⟨st.nextTxId, uw, Dir.credit, a⟩],
         nextTxId := st.nextTxId + 1 }⟩ := by
  unfold AdminTopup
  rw [if_neg h0, if_neg hcap, h2, h3]
  simp [hne, h4]

/-- `CreateWithdrawal` on the success path. -/
theorem CreateWithdrawal_success {st : St} {uid : String} {a : Int} {uw sw : String}
    (h0 : ¬ a ≤ 0)
    (h2 : lookupWallet st uid = some uw) (h3 : lookupWallet st st.sysUserId = some sw)
    (h5 : ¬ balance st uw < a) :
    CreateWithdrawal st uid a =
      ⟨Res.ok (Resp.wdr st.nextWId "pending"), lockWallets uw sw, none,
       { st with
         transactions := st.transactions ++ [⟨st.nextTxId, none, "withdrawal", a⟩],
         entries := st.entries ++
           [⟨st.nextTxId, uw, Dir.debit, a⟩, ⟨st.nextTxId, sw, Dir.credit, a⟩],
         withdrawals := st.withdrawals ++ [⟨st.nextWId, uid, a, WStatus.pending, st.nextTxId⟩],
         nextTxId := st.nextTxId + 1,
         nextWId := st.nextWId + 1 }⟩ := by
  unfold CreateWithdrawal
  rw [if_neg h0, h2, h3]
  simp [h5]

end Okies

namespace Okies

/-- C2 (amended): gift and admin top-up are idempotent — the first call
with a fresh key commits exactly one transaction, and a retried call with
the same key and parameters short-circuits, returns the same transaction
id with status "succeeded" and changes nothing — while `CreateWithdrawal`
accepts no idempotency key at all: its hold transaction carries no key
and each successful call, retry included, posts a fresh hold transaction
and a fresh withdrawal. -/
theorem c2_amended_idempotency (st : St) :
    (∀ uid recip a K sw rcpW, ¬ (a ≤ 0 ∨ recip = "") → recip ≠ uid →
      lookupWallet st uid = some sw → lookupWallet st recip = some rcpW →
      findTxByKey st K = none → ¬ balance st sw < a →
      (CreateGift st uid recip a K).res = Res.ok (Resp.gift st.nextTxId "succeeded") ∧
      (CreateGift st uid recip a K).st.transactions.length = st.transactions.length + 1 ∧
      CreateGift (CreateGift st uid recip a K).st uid recip a K =
        ⟨Res.ok (Resp.gift st.nextTxId "succeeded"), lockWallets sw rcpW, none,
         (CreateGift st uid recip a K).st⟩) ∧
    (∀ target a K uw sw, ¬ (target = "" ∨ a ≤ 0) → ¬ a > 500000000 →
      lookupWallet st target = some uw → lookupWallet st st.sysUserId = some sw →
      uw ≠ sw → findTxByKey st K = none →
      (AdminTopup st target a K).res = Res.ok (Resp.topup st.nextTxId "succeeded") ∧
      (AdminTopup st target a K).st.transactions.length = st.transactions.length + 1 ∧
      AdminTopup (AdminTopup st target a K).st target a K =
        ⟨Res.ok (Resp.topup st.nextTxId "succeeded"), lockWallets uw sw, none,
         (AdminTopup st target a K).st⟩) ∧
    (∀ uid a uw sw, 0 < a → lookupWallet st uid = some uw →
      lookupWallet st st.sysUserId = some sw → uw ≠ sw → a + a ≤ balance st uw →
      (CreateWithdrawal st uid a).res = Res.ok (Resp.wdr st.nextWId "pending") ∧
      (CreateWithdrawal (CreateWithdrawal st uid a).st uid a).res =
        Res.ok (Resp.wdr (st.nextWId + 1) "pending") ∧
      (CreateWithdrawal (CreateWithdrawal st uid a).st uid a).st.transactions.length =
        st.transactions.length + 2 ∧
      (∀ t ∈ (CreateWithdrawal (CreateWithdrawal st uid a).st uid a).st.transactions,
        t ∈ st.transactions ∨ t.idemKey = none)) := by
  refine ⟨?_, ?_, ?_⟩
  · intro uid recip a K sw rcpW h0 h1 h2 h3 h4 h5
    rw [CreateGift_success h0 h1 h2 h3 h4 h5]
    refine ⟨rfl, by simp, ?_⟩
    set st1 : St :=
      { st with
        transactions := st.transactions ++ [⟨st.nextTxId, some K, "gift", a⟩],
        entries := st.entries ++
          [⟨st.nextTxId, sw, Dir.debit, a⟩, ⟨st.nextTxId, rcpW, Dir.credit, a⟩],
        nextTxId := st.nextTxId + 1 } with hst1
    have hw : st1.wallets = st.wallets := rfl
    have hfind : findTxByKey st1 K = some ⟨st.nextTxId, some K, "gift", a⟩ := by
      unfold findTxByKey at h4 ⊢
      rw [show st1.transactions = st.transactions ++ [⟨st.nextTxId, some K, "gift", a⟩] from rfl,
        List.find?_append, h4]
      simp
    unfold CreateGift
    rw [if_neg h0, if_neg h1, lookupWallet_congr hw uid, h2,
      lookupWallet_congr hw recip, h3, hfind]
  · intro target a K uw sw h0 hcap h2 h3 hne h4
    rw [AdminTopup_success h0 hcap h2 h3 hne h4]
    refine ⟨rfl, by simp, ?_⟩
    set st1 : St :=
      { st with
        transactions := st.transactions ++ [⟨st.nextTxId, some K, "topup", a⟩],
        entries := st.entries ++
          [⟨st.nextTxId, sw, Dir.debit, a⟩, ⟨st.nextTxId, uw, Dir.credit, a⟩],
        nextTxId := st.nextTxId + 1 } with hst1
    have hw : st1.wallets = st.wallets := rfl
    have hsys : st1.sysUserId = st.sysUserId := rfl
    have hfind : findTxByKey st1 K = some ⟨st.nextTxId, some K, "topup", a⟩ := by
      unfold findTxByKey at h4 ⊢
      rw [show st1.transactions = st.transactions ++ [⟨st.nextTxId, some K, "topup", a⟩] from rfl,
        List.find?_append, h4]
      simp
    unfold AdminTopup
    rw [if_neg h0, if_neg hcap, lookupWallet_congr hw target, h2, hsys,
      lookupWallet_congr hw st.sysUserId, h3]
    simp [hne, hfind]
  · intro uid a uw sw hpos h2 h3 hne hbal
    have h0 : ¬ a ≤ 0 := by omega
    have h5 : ¬ balance st uw < a := by omega
    rw [CreateWithdrawal_success h0 h2 h3 h5]
    set st1 : St :=
      { st with
        transactions := st.transactions ++ [⟨st.nextTxId, none, "withdrawal", a⟩],
        entries := st.entries ++
          [⟨st.nextTxId, uw, Dir.debit, a⟩, ⟨st.nextTxId, sw, Dir.credit, a⟩],
        withdrawals := st.withdrawals ++ [⟨st.nextWId, uid, a, WStatus.pending, st.nextTxId⟩],
        nextTxId := st.nextTxId + 1,
        nextWId := st.nextWId + 1 } with hst1
    have hw : st1.wallets = st.wallets := rfl
    have hsys : st1.sysUserId = st.sysUserId := rfl
    have hbal1 : balance st1 uw = balance st uw - a := by
      show balanceE (st.entries ++
        [⟨st.nextTxId, uw, Dir.debit, a⟩, ⟨st.nextTxId, sw, Dir.credit, a⟩]) uw =
        balance st uw - a
      rw [balanceE_append]
      have : balanceE
          [⟨st.nextTxId, uw, Dir.debit, a⟩, ⟨st.nextTxId, sw, Dir.credit, a⟩] uw = -a := by
        simp [balanceE, entryDelta, Ne.symm hne]
      rw [this]
      unfold balance
      ring
    have h5' : ¬ balance st1 uw < a := by omega
    have hstep := CreateWithdrawal_success h0
      (by rw [lookupWallet_congr hw uid]; exact h2)
      (by rw [hsys, lookupWallet_congr hw st.sysUserId]; exact h3) h5'
    rw [hstep]
    refine ⟨rfl, rfl, by simp, ?_⟩
    intro t ht
    have : t ∈ st.transactions ++ [(⟨st.nextTxId, none, "withdrawal", a⟩ : Transaction)]
        ++ [(⟨st1.nextTxId, none, "withdrawal", a⟩ : Transaction)] := by
      simpa using ht
    rcases List.mem_append.mp this with h | h
    · rcases List.mem_append.mp h with h' | h'
      · exact Or.inl h'
      · right
        rcases List.mem_singleton.mp h' with rfl
        rfl
    · right
      rcases List.mem_singleton.mp h with rfl
      rfl

/-- Witness for C2 (amended): in `demoSt`, a retried 50-kobo gift from
`u1` to `u2` under key `k9` returns the same transaction id (1) and
leaves the post-first-call state unchanged. -/
theorem c2_amended_idempotency_witness :
    (CreateGift demoSt "u1" "u2" 50 "k9").res = Res.ok (Resp.gift demoSt.nextTxId "succeeded") ∧
    (CreateGift demoSt "u1" "u2" 50 "k9").st.transactions.length =
      demoSt.transactions.length + 1 ∧
    CreateGift (CreateGift demoSt "u1" "u2" 50 "k9").st "u1" "u2" 50 "k9" =
      ⟨Res.ok (Resp.gift demoSt.nextTxId "succeeded"), lockWallets "wa" "wb", none,
       (CreateGift demoSt "u1" "u2" 50 "k9").st⟩ :=
  (c2_amended_idempotency demoSt).1 "u1" "u2" 50 "k9" "wa" "wb"
    (by decide) (by decide) (by decide) (by decide) (by decide) (by decide)

end Okies

namespace Okies

/-- `AdminRejectWithdrawal` on the success path (pending withdrawal found,
both wallets resolved). -/
theorem AdminReject_success {st : St} {i : Nat} {wd : Withdrawal} {userW sysW : String}
    (hfind : st.withdrawals.find?
      (fun (w : Withdrawal) => decide (w.id = i ∧ w.status = WStatus.pending)) = some wd)
    (h2 : lookupWallet st wd.userId = some userW)
    (h3 : lookupWallet st st.sysUserId = some sysW) :
    AdminRejectWithdrawal st i =
      ⟨Res.ok (Resp.reject i "rejected"), lockWallets userW sysW, none,
       { st with
         transactions := st.transactions ++ [⟨st.nextTxId, none, "withdrawal", wd.amount⟩],
         entries := st.entries ++
           [⟨st.nextTxId, userW, Dir.credit, wd.amount⟩,
            ⟨st.nextTxId, sysW, Dir.debit, wd.amount⟩],
         withdrawals := markRejected st.withdrawals i,
         nextTxId := st.nextTxId + 1 }⟩ := by
  unfold AdminRejectWithdrawal
  rw [hfind]
  simp [h2, h3]

theorem find?_pending_append_fresh (ws : List Withdrawal) (n : Nat)
    (hfr : ∀ wd ∈ ws, wd.id < n) (wd0 : Withdrawal)
    (h0 : wd0.id = n) (hp : wd0.status = WStatus.pending) :
    (ws ++ [wd0]).find?
      (fun (w : Withdrawal) => decide (w.id = n ∧ w.status = WStatus.pending)) = some wd0 := by
  rw [List.find?_append, List.find?_eq_none.mpr, Option.none_or]
  · simp [h0, hp]
  · intro w hw
    have := hfr w hw
    simp only [decide_eq_true_eq, not_and]
    intro hid
    omega

theorem find?_id_append_fresh (ws : List Withdrawal) (n : Nat)
    (hfr : ∀ wd ∈ ws, wd.id < n) (wd0 : Withdrawal) (h0 : wd0.id = n) :
    (ws ++ [wd0]).find? (fun (w : Withdrawal) => decide (w.id = n)) = some wd0 := by
  rw [List.find?_append, List.find?_eq_none.mpr, Option.none_or]
  · simp [h0]
  · intro w hw
    have := hfr w hw
    simp only [decide_eq_true_eq]
    omega

end Okies

namespace Okies

theorem AdminReject_notFound {st : St} {i : Nat}
    (h : st.withdrawals.find?
      (fun (w : Withdrawal) => decide (w.id = i ∧ w.status = WStatus.pending)) = none) :
    AdminRejectWithdrawal st i = ⟨Res.err HErr.notFoundOrAlreadyProcessed, [], none, st⟩ := by
  unfold AdminRejectWithdrawal
  rw [h]

/-- C4: rejecting a withdrawal succeeds only while it is pending; a
successful reject atomically posts a reversal transaction that exactly
mirrors the hold (credit the user wallet, debit the treasury wallet, same
amount N), restoring the user's balance to its pre-withdrawal value, and
marks the withdrawal rejected; a second reject of the now non-pending
withdrawal reports `not_found_or_already_processed` and changes no state. -/
theorem c4_reject_reverses_hold (st : St) (uid : String) (N : Int) (userW sysW : String)
    (hwf : WFWallets st) (huid : uid ≠ st.sysUserId)
    (hU : lookupWallet st uid = some userW) (hS : lookupWallet st st.sysUserId = some sysW)
    (hpos : 0 < N) (hbal : N ≤ balance st userW)
    (hfr : ∀ wd ∈ st.withdrawals, wd.id < st.nextWId) :
    (CreateWithdrawal st uid N).res = Res.ok (Resp.wdr st.nextWId "pending") ∧
    (CreateWithdrawal st uid N).st.entries = st.entries ++
      [⟨st.nextTxId, userW, Dir.debit, N⟩, ⟨st.nextTxId, sysW, Dir.credit, N⟩] ∧
    balance (CreateWithdrawal st uid N).st userW = balance st userW - N ∧
    (AdminRejectWithdrawal (CreateWithdrawal st uid N).st st.nextWId).res =
      Res.ok (Resp.reject st.nextWId "rejected") ∧
    (AdminRejectWithdrawal (CreateWithdrawal st uid N).st st.nextWId).st.entries =
      (CreateWithdrawal st uid N).st.entries ++
      [⟨(CreateWithdrawal st uid N).st.nextTxId, userW, Dir.credit, N⟩,
       ⟨(CreateWithdrawal st uid N).st.nextTxId, sysW, Dir.debit, N⟩] ∧
    balance (AdminRejectWithdrawal (CreateWithdrawal st uid N).st st.nextWId).st userW =
      balance st userW ∧
    findWithdrawal (AdminRejectWithdrawal (CreateWithdrawal st uid N).st st.nextWId).st
      st.nextWId = some ⟨st.nextWId, uid, N, WStatus.rejected, st.nextTxId⟩ ∧
    AdminRejectWithdrawal
        (AdminRejectWithdrawal (CreateWithdrawal st uid N).st st.nextWId).st st.nextWId =
      ⟨Res.err HErr.notFoundOrAlreadyProcessed, [], none,
       (AdminRejectWithdrawal (CreateWithdrawal st uid N).st st.nextWId).st⟩ ∧
    (∀ st' i, (∀ wd ∈ st'.withdrawals, ¬ (wd.id = i ∧ wd.status = WStatus.pending)) →
      AdminRejectWithdrawal st' i =
        ⟨Res.err HErr.notFoundOrAlreadyProcessed, [], none, st'⟩) := by
  have hneW : userW ≠ sysW := by
    intro h
    exact huid (lookupWallet_inj hwf hU (by rw [h]; exact hS))
  have h0 : ¬ N ≤ 0 := by omega
  have h5 : ¬ balance st userW < N := by omega
  set wd0 : Withdrawal := ⟨st.nextWId, uid, N, WStatus.pending, st.nextTxId⟩ with hwd0
  set st1 : St :=
    { st with
      transactions := st.transactions ++ [⟨st.nextTxId, none, "withdrawal", N⟩],
      entries := st.entries ++
        [⟨st.nextTxId, userW, Dir.debit, N⟩, ⟨st.nextTxId, sysW, Dir.credit, N⟩],
      withdrawals := st.withdrawals ++ [wd0],
      nextTxId := st.nextTxId + 1,
      nextWId := st.nextWId + 1 } with hst1
  have ho1 : CreateWithdrawal st uid N =
      ⟨Res.ok (Resp.wdr st.nextWId "pending"), lockWallets userW sysW, none, st1⟩ :=
    CreateWithdrawal_success h0 hU hS h5
  have hfind1 : st1.withdrawals.find?
      (fun (w : Withdrawal) =>
        decide (w.id = st.nextWId ∧ w.status = WStatus.pending)) = some wd0 := by
    rw [show st1.withdrawals = st.withdrawals ++ [wd0] from rfl]
    exact find?_pending_append_fresh _ _ hfr wd0 rfl rfl
  have h2' : lookupWallet st1 wd0.userId = some userW := by
    rw [lookupWallet_congr (show st1.wallets = st.wallets from rfl)]
    exact hU
  have h3' : lookupWallet st1 st1.sysUserId = some sysW := by
    rw [show st1.sysUserId = st.sysUserId from rfl,
      lookupWallet_congr (show st1.wallets = st.wallets from rfl)]
    exact hS
  set st2 : St :=
    { st1 with
      transactions := st1.transactions ++ [⟨st1.nextTxId, none, "withdrawal", N⟩],
      entries := st1.entries ++
        [⟨st1.nextTxId, userW, Dir.credit, N⟩, ⟨st1.nextTxId, sysW, Dir.debit, N⟩],
      withdrawals := markRejected st1.withdrawals st.nextWId,
      nextTxId := st1.nextTxId + 1 } with hst2
  have ho2 : AdminRejectWithdrawal st1 st.nextWId =
      ⟨Res.ok (Resp.reject st.nextWId "rejected"), lockWallets userW sysW, none, st2⟩ :=
    AdminReject_success hfind1 h2' h3'
  have hb1 : balance st1 userW = balance st userW - N := by
    show balanceE (st.entries ++
      [⟨st.nextTxId, userW, Dir.debit, N⟩, ⟨st.nextTxId, sysW, Dir.credit, N⟩]) userW = _
    rw [balanceE_append]
    unfold balance
    simp [balanceE, entryDelta, Ne.symm hneW]
    ring
  have hb2 : balance st2 userW = balance st1 userW + N := by
    show balanceE (st1.entries ++
      [⟨st1.nextTxId, userW, Dir.credit, N⟩, ⟨st1.nextTxId, sysW, Dir.debit, N⟩]) userW = _
    rw [balanceE_append]
    unfold balance
    simp [balanceE, entryDelta, Ne.symm hneW]
  have hfw : findWithdrawal st2 st.nextWId =
      some ⟨st.nextWId, uid, N, WStatus.rejected, st.nextTxId⟩ := by
    unfold findWithdrawal
    rw [show st2.withdrawals = markRejected st1.withdrawals st.nextWId from rfl]
    unfold markRejected
    rw [find?_map_eq_map_find? _ _
        (by intro x
            by_cases hx : x.id = st.nextWId ∧ x.status = WStatus.pending <;> simp [hx]),
      show st1.withdrawals = st.withdrawals ++ [wd0] from rfl,
      find?_id_append_fresh _ _ hfr wd0 rfl]
    simp [hwd0]
  have hsecond : AdminRejectWithdrawal st2 st.nextWId =
      ⟨Res.err HErr.notFoundOrAlreadyProcessed, [], none, st2⟩ := by
    apply AdminReject_notFound
    rw [show st2.withdrawals = markRejected st1.withdrawals st.nextWId from rfl]
    exact find?_pending_markRejected _ _
  refine ⟨by rw [ho1], by rw [ho1], by rw [ho1]; exact hb1, by rw [ho1, ho2],
    by rw [ho1, ho2], ?_, by rw [ho1, ho2]; exact hfw, by rw [ho1, ho2]; exact hsecond, ?_⟩
  · rw [ho1, ho2]
    show balance st2 userW = balance st userW
    rw [hb2, hb1]
    ring
  · intro st' i h
    exact AdminReject_notFound (List.find?_eq_none.mpr (by
      intro w hw
      simpa using h w hw))

/-- Witness for C4: in `demoSt`, `u1` (balance 1000) withdraws 400; the
hold drops the balance to 600, the reject restores 1000 and marks the
withdrawal rejected, and a second reject is a no-op error. -/
theorem c4_reject_reverses_hold_witness :
    (CreateWithdrawal demoSt "u1" 400).res = Res.ok (Resp.wdr demoSt.nextWId "pending") ∧
    (CreateWithdrawal demoSt "u1" 400).st.entries = demoSt.entries ++
      [⟨demoSt.nextTxId, "wa", Dir.debit, 400⟩, ⟨demoSt.nextTxId, "wz", Dir.credit, 400⟩] ∧
    balance (CreateWithdrawal demoSt "u1" 400).st "wa" = balance demoSt "wa" - 400 ∧
    (AdminRejectWithdrawal (CreateWithdrawal demoSt "u1" 400).st demoSt.nextWId).res =
      Res.ok (Resp.reject demoSt.nextWId "rejected") ∧
    (AdminRejectWithdrawal (CreateWithdrawal demoSt "u1" 400).st demoSt.nextWId).st.entries =
      (CreateWithdrawal demoSt "u1" 400).st.entries ++
      [⟨(CreateWithdrawal demoSt "u1" 400).st.nextTxId, "wa", Dir.credit, 400⟩,
       ⟨(CreateWithdrawal demoSt "u1" 400).st.nextTxId, "wz", Dir.debit, 400⟩] ∧
    balance (AdminRejectWithdrawal (CreateWithdrawal demoSt "u1" 400).st demoSt.nextWId).st
      "wa" = balance demoSt "wa" ∧
    findWithdrawal
      (AdminRejectWithdrawal (CreateWithdrawal demoSt "u1" 400).st demoSt.nextWId).st
      demoSt.nextWId = some ⟨demoSt.nextWId, "u1", 400, WStatus.rejected, demoSt.nextTxId⟩ ∧
    AdminRejectWithdrawal
        (AdminRejectWithdrawal (CreateWithdrawal demoSt "u1" 400).st demoSt.nextWId).st
        demoSt.nextWId =
      ⟨Res.err HErr.notFoundOrAlreadyProcessed, [], none,
       (AdminRejectWithdrawal (CreateWithdrawal demoSt "u1" 400).st demoSt.nextWId).st⟩ ∧
    (∀ st' i, (∀ wd ∈ st'.withdrawals, ¬ (wd.id = i ∧ wd.status = WStatus.pending)) →
      AdminRejectWithdrawal st' i =
        ⟨Res.err HErr.notFoundOrAlreadyProcessed, [], none, st'⟩) :=
  c4_reject_reverses_hold demoSt "u1" 400 "wa" "wz"
    ⟨by decide, by decide⟩ (by decide) (by decide) (by decide) (by decide) (by decide)
    (by decide)

end Okies

namespace Okies

/-! ## Branch enumeration of each handler's state effect -/

/-- `CreateGift` either leaves the state unchanged (validation error,
replay, or insufficient funds) or commits the gift transaction pair. -/
theorem CreateGift_cases (st : St) (uid recip : String) (a : Int) (k : String) :
    (CreateGift st uid recip a k).st = st ∨
    (∃ sw rcpW, lookupWallet st uid = some sw ∧ lookupWallet st recip = some rcpW ∧
      recip ≠ uid ∧ ¬ a ≤ 0 ∧ ¬ balance st sw < a ∧
      (CreateGift st uid recip a k).st =
        { st with
          transactions := st.transactions ++ [⟨st.nextTxId, some k, "gift", a⟩],
          entries := st.entries ++
            [⟨st.nextTxId, sw, Dir.debit, a⟩, ⟨st.nextTxId, rcpW, Dir.credit, a⟩],
          nextTxId := st.nextTxId + 1 }) := by
  by_cases h0 : a ≤ 0 ∨ recip = ""
  · left
    unfold CreateGift
    rw [if_pos h0]
  by_cases h1 : recip = uid
  · left
    unfold CreateGift
    rw [if_neg h0, if_pos h1]
  cases hsw : lookupWallet st uid with
  | none =>
    left
    unfold CreateGift
    rw [if_neg h0, if_neg h1, hsw]
  | some sw =>
    cases hrw : lookupWallet st recip with
    | none =>
      left
      unfold CreateGift
      rw [if_neg h0, if_neg h1, hsw]
      simp [hrw]
    | some rcpW =>
      cases hkey : findTxByKey st k with
      | some t =>
        left
        unfold CreateGift
        rw [if_neg h0, if_neg h1, hsw]
        simp [hrw, hkey]
      | none =>
        by_cases hb : balance st sw < a
        · left
          unfold CreateGift
          rw [if_neg h0, if_neg h1, hsw]
          simp [hrw, hkey, hb]
        · right
          refine ⟨sw, rcpW, rfl, rfl, h1, fun hle => h0 (Or.inl hle), hb, ?_⟩
          rw [CreateGift_success h0 h1 hsw hrw hkey hb]

/-- `AdminTopup` either leaves the state unchanged or commits the top-up
transaction pair into two distinct wallets. -/
theorem AdminTopup_cases (st : St) (target : String) (a : Int) (k : String) :
    (AdminTopup st target a k).st = st ∨
    (∃ uw sw, lookupWallet st target = some uw ∧ lookupWallet st st.sysUserId = some sw ∧
      uw ≠ sw ∧ ¬ a ≤ 0 ∧
      (AdminTopup st target a k).st =
        { st with
          transactions := st.transactions ++ [⟨st.nextTxId, some k, "topup", a⟩],
          entries := st.entries ++
            [⟨st.nextTxId, sw, Dir.debit, a⟩, ⟨st.nextTxId, uw, Dir.credit, a⟩],
          nextTxId := st.nextTxId + 1 }) := by
  by_cases h0 : target = "" ∨ a ≤ 0
  · left
    unfold AdminTopup
    rw [if_pos h0]
  by_cases hcap : a > 500000000
  · left
    unfold AdminTopup
    rw [if_neg h0, if_pos hcap]
  cases huw : lookupWallet st target with
  | none =>
    left
    unfold AdminTopup
    rw [if_neg h0, if_neg hcap, huw]
  | some uw =>
    cases hsw : lookupWallet st st.sysUserId with
    | none =>
      left
      unfold AdminTopup
      rw [if_neg h0, if_neg hcap, huw]
      simp [hsw]
    | some sw =>
      by_cases hne : uw = sw
      · left
        unfold AdminTopup
        rw [if_neg h0, if_neg hcap, huw]
        simp [hsw, hne]
      cases hkey : findTxByKey st k with
      | some t =>
        left
        unfold AdminTopup
        rw [if_neg h0, if_neg hcap, huw]
        simp [hsw, hne, hkey]
      | none =>
        right
        refine ⟨uw, sw, rfl, rfl, hne, fun hle => h0 (Or.inr hle), ?_⟩
        rw [AdminTopup_success h0 hcap huw hsw hne hkey]

/-- `CreateWithdrawal` either leaves the state unchanged or commits the
hold pair plus a pending withdrawal row. -/
theorem CreateWithdrawal_cases (st : St) (uid : String) (a : Int) :
    (CreateWithdrawal st uid a).st = st ∨
    (∃ uw sw, lookupWallet st uid = some uw ∧ lookupWallet st st.sysUserId = some sw ∧
      ¬ a ≤ 0 ∧ ¬ balance st uw < a ∧
      (CreateWithdrawal st uid a).st =
        { st with
          transactions := st.transactions ++ [⟨st.nextTxId, none, "withdrawal", a⟩],
          entries := st.entries ++
            [⟨st.nextTxId, uw, Dir.debit, a⟩, ⟨st.nextTxId, sw, Dir.credit, a⟩],
          withdrawals := st.withdrawals ++
            [⟨st.nextWId, uid, a, WStatus.pending, st.nextTxId⟩],
          nextTxId := st.nextTxId + 1,
          nextWId := st.nextWId + 1 }) := by
  by_cases h0 : a ≤ 0
  · left
    unfold CreateWithdrawal
    rw [if_pos h0]
  cases huw : lookupWallet st uid with
  | none =>
    left
    unfold CreateWithdrawal
    rw [if_neg h0, huw]
  | some uw =>
    cases hsw : lookupWallet st st.sysUserId with
    | none =>
      left
      unfold CreateWithdrawal
      rw [if_neg h0, huw]
      simp [hsw]
    | some sw =>
      by_cases hb : balance st uw < a
      · left
        unfold CreateWithdrawal
        rw [if_neg h0, huw]
        simp [hsw, hb]
      · right
        refine ⟨uw, sw, rfl, rfl, h0, hb, ?_⟩
        rw [CreateWithdrawal_success h0 huw hsw hb]

/-- `AdminRejectWithdrawal` either leaves the state unchanged or commits
the reversal pair and marks the pending withdrawal rejected. -/
theorem AdminReject_cases (st : St) (i : Nat) :
    (AdminRejectWithdrawal st i).st = st ∨
    (∃ wd userW sysW,
      st.withdrawals.find?
        (fun (w : Withdrawal) => decide (w.id = i ∧ w.status = WStatus.pending)) = some wd ∧
      lookupWallet st wd.userId = some userW ∧
      lookupWallet st st.sysUserId = some sysW ∧
      (AdminRejectWithdrawal st i).st =
        { st with
          transactions := st.transactions ++ [⟨st.nextTxId, none, "withdrawal", wd.amount⟩],
          entries := st.entries ++
            [⟨st.nextTxId, userW, Dir.credit, wd.amount⟩,
             ⟨st.nextTxId, sysW, Dir.debit, wd.amount⟩],
          withdrawals := markRejected st.withdrawals i,
          nextTxId := st.nextTxId + 1 }) := by
  cases hfind : st.withdrawals.find?
      (fun (w : Withdrawal) => decide (w.id = i ∧ w.status = WStatus.pending)) with
  | none =>
    left
    rw [AdminReject_notFound hfind]
  | some wd =>
    cases huw : lookupWallet st wd.userId with
    | none =>
      left
      unfold AdminRejectWithdrawal
      rw [hfind]
      simp [huw]
    | some userW =>
      cases hsw : lookupWallet st st.sysUserId with
      | none =>
        left
        unfold AdminRejectWithdrawal
        rw [hfind]
        simp [huw, hsw]
      | some sysW =>
        right
        refine ⟨wd, userW, sysW, rfl, huw, rfl, ?_⟩
        rw [AdminReject_success hfind huw hsw]

/-- `AdminApproveWithdrawal` never touches the ledger, the wallet table or
the counters; its withdrawals are at most conditionally marked approved. -/
theorem AdminApprove_static (st : St) (i : Nat) (ok : Bool) :
    (AdminApproveWithdrawal st i ok).st.entries = st.entries ∧
    (AdminApproveWithdrawal st i ok).st.transactions = st.transactions ∧
    (AdminApproveWithdrawal st i ok).st.wallets = st.wallets ∧
    (AdminApproveWithdrawal st i ok).st.sysUserId = st.sysUserId ∧
    (AdminApproveWithdrawal st i ok).st.destUsers = st.destUsers ∧
    (AdminApproveWithdrawal st i ok).st.nextTxId = st.nextTxId ∧
    (AdminApproveWithdrawal st i ok).st.nextWId = st.nextWId ∧
    ((AdminApproveWithdrawal st i ok).st.withdrawals = st.withdrawals ∨
     (AdminApproveWithdrawal st i ok).st.withdrawals = markApproved st.withdrawals i) := by
  unfold AdminApproveWithdrawal
  repeat' split
  all_goals try dsimp only []
  all_goals
    refine ⟨?_, ?_, ?_, ?_, ?_, ?_, ?_, ?_⟩ <;>
    first
      | rfl
      | (split <;> rfl)
      | (left; rfl)
      | (right; rfl)
      | (left; split <;> rfl)
      | (right; split <;> rfl)
      | (split <;> first | (left; rfl) | (right; rfl))

/-- `FlutterwaveWebhook` never touches the ledger, the wallet table or the
counters; its withdrawals are at most marked with a terminal status. -/
theorem FlutterwaveWebhook_static (st : St) (ref rawStatus : String) :
    (FlutterwaveWebhook st ref rawStatus).entries = st.entries ∧
    (FlutterwaveWebhook st ref rawStatus).transactions = st.transactions ∧
    (FlutterwaveWebhook st ref rawStatus).wallets = st.wallets ∧
    (FlutterwaveWebhook st ref rawStatus).sysUserId = st.sysUserId ∧
    (FlutterwaveWebhook st ref rawStatus).destUsers = st.destUsers ∧
    (FlutterwaveWebhook st ref rawStatus).nextTxId = st.nextTxId ∧
    (FlutterwaveWebhook st ref rawStatus).nextWId = st.nextWId ∧
    ((FlutterwaveWebhook st ref rawStatus).withdrawals = st.withdrawals ∨
     ∃ j s, (FlutterwaveWebhook st ref rawStatus).withdrawals =
        markFinal st.withdrawals j s) := by
  unfold FlutterwaveWebhook
  repeat' split
  all_goals try dsimp only []
  all_goals
    refine ⟨?_, ?_, ?_, ?_, ?_, ?_, ?_, ?_⟩ <;>
    first
      | rfl
      | (split <;> rfl)
      | (left; rfl)
      | (left; split <;> rfl)
      | (right; exact ⟨_, _, rfl⟩)
      | (right; split <;> exact ⟨_, _, rfl⟩)
      | (split <;> first | (left; rfl) | (right; exact ⟨_, _, rfl⟩))

end Okies

namespace Okies

/-! ## No negative balance (C3) -/

/-- Every wallet not owned by the system user has a non-negative derived
balance. -/
def NonNegBal (st : St) : Prop :=
  ∀ w ∈ st.wallets, w.userId ≠ st.sysUserId → 0 ≤ balance st w.id

/-- Every recorded withdrawal holds a positive amount (schema CHECK
amount > 0; `CreateWithdrawal` rejects amount <= 0). -/
def WdAmtPos (st : St) : Prop :=
  ∀ wd ∈ st.withdrawals, 0 < wd.amount

theorem WFWallets_congr {st st' : St} (h : st'.wallets = st.wallets)
    (hwf : WFWallets st) : WFWallets st' := by
  unfold WFWallets at hwf ⊢
  rw [h]
  exact hwf

/-- A non-system wallet's id never equals the resolved system wallet id. -/
theorem nonsys_wallet_ne {st : St} (hwf : WFWallets st) {w : Wallet} (hw : w ∈ st.wallets)
    (hwne : w.userId ≠ st.sysUserId) {sysW : String}
    (hS : lookupWallet st st.sysUserId = some sysW) : sysW ≠ w.id := by
  intro h
  rcases lookupWallet_mem hS with ⟨r, hr, hru, hri⟩
  have hrw : r = w := List.inj_on_of_nodup_map hwf.1 hr hw (by rw [hri, h])
  exact hwne (by rw [← hru, hrw])

theorem balanceE_pair (t1 t2 : Nat) (w1 w2 : String) (d1 d2 : Dir) (a1 a2 : Int)
    (w : String) :
    balanceE [⟨t1, w1, d1, a1⟩, ⟨t2, w2, d2, a2⟩] w =
      entryDelta w ⟨t1, w1, d1, a1⟩ + entryDelta w ⟨t2, w2, d2, a2⟩ := by
  simp [balanceE]

theorem wdAmtPos_map {ws : List Withdrawal} (h : ∀ wd ∈ ws, 0 < wd.amount)
    (g : Withdrawal → Withdrawal) (hg : ∀ w, (g w).amount = w.amount) :
    ∀ wd ∈ ws.map g, 0 < wd.amount := by
  intro wd hwd
  rcases List.mem_map.mp hwd with ⟨x, hx, rfl⟩
  rw [hg]
  exact h x hx

/-- One committed operation keeps wallet-table well-formedness, the
non-negative-balance invariant and positive withdrawal amounts. -/
theorem applyOp_preserves (st : St) (op : Op) (hwf : WFWallets st)
    (hnn : NonNegBal st) (hwd : WdAmtPos st) :
    WFWallets (applyOp st op) ∧ NonNegBal (applyOp st op) ∧ WdAmtPos (applyOp st op) := by
  cases op with
  | gift uid recip a k =>
    simp only [applyOp]
    rcases CreateGift_cases st uid recip a k with h |
      ⟨sw, rcpW, hsw, hrw, hneq, hpos, hbal, h⟩
    · rw [h]
      exact ⟨hwf, hnn, hwd⟩
    · rw [h]
      refine ⟨WFWallets_congr rfl hwf, ?_, fun wd hwdm => hwd wd hwdm⟩
      intro w hw hwne
      have hbase := hnn w hw hwne
      unfold balance at hbase ⊢
      show 0 ≤ balanceE (st.entries ++
        [⟨st.nextTxId, sw, Dir.debit, a⟩, ⟨st.nextTxId, rcpW, Dir.credit, a⟩]) w.id
      rw [balanceE_append, balanceE_pair]
      unfold balance at hbal
      by_cases h1 : sw = w.id
      · rw [h1] at hbal
        by_cases h2 : rcpW = w.id <;> simp [entryDelta, h1, h2] <;> linarith
      · by_cases h2 : rcpW = w.id <;> simp [entryDelta, h1, h2] <;> linarith
  | topup target a k =>
    simp only [applyOp]
    rcases AdminTopup_cases st target a k with h | ⟨uw, sw, huw, hsw, hne, hpos, h⟩
    · rw [h]
      exact ⟨hwf, hnn, hwd⟩
    · rw [h]
      refine ⟨WFWallets_congr rfl hwf, ?_, fun wd hwdm => hwd wd hwdm⟩
      intro w hw hwne
      have hbase := hnn w hw hwne
      have hsys := nonsys_wallet_ne hwf hw hwne hsw
      unfold balance at hbase ⊢
      show 0 ≤ balanceE (st.entries ++
        [⟨st.nextTxId, sw, Dir.debit, a⟩, ⟨st.nextTxId, uw, Dir.credit, a⟩]) w.id
      rw [balanceE_append, balanceE_pair]
      by_cases h2 : uw = w.id <;> simp [entryDelta, hsys, h2] <;> linarith
  | wdrCreate uid a =>
    simp only [applyOp]
    rcases CreateWithdrawal_cases st uid a with h | ⟨uw, sw, huw, hsw, hpos, hbal, h⟩
    · rw [h]
      exact ⟨hwf, hnn, hwd⟩
    · rw [h]
      refine ⟨WFWallets_congr rfl hwf, ?_, ?_⟩
      · intro w hw hwne
        have hbase := hnn w hw hwne
        unfold balance at hbase hbal ⊢
        show 0 ≤ balanceE (st.entries ++
          [⟨st.nextTxId, uw, Dir.debit, a⟩, ⟨st.nextTxId, sw, Dir.credit, a⟩]) w.id
        rw [balanceE_append, balanceE_pair]
        by_cases h1 : uw = w.id
        · rw [h1] at hbal
          by_cases h2 : sw = w.id <;> simp [entryDelta, h1, h2] <;> linarith
        · by_cases h2 : sw = w.id <;> simp [entryDelta, h1, h2] <;> linarith
      · intro wd hwdm
        show 0 < wd.amount
        rcases List.mem_append.mp hwdm with hmem | hmem
        · exact hwd wd hmem
        · rcases List.mem_singleton.mp hmem with rfl
          show 0 < a
          omega
  | wdrApprove i ok =>
    simp only [applyOp]
    rcases AdminApprove_static st i ok with ⟨he, ht, hwl, hsy, hd, hn, hnw, hor⟩
    refine ⟨WFWallets_congr hwl hwf, ?_, ?_⟩
    · intro w hw hwne
      rw [hwl] at hw
      rw [hsy] at hwne
      have := hnn w hw hwne
      unfold balance at this ⊢
      rw [he]
      exact this
    · rcases hor with h | h
      · intro wd hwdm
        rw [h] at hwdm
        exact hwd wd hwdm
      · intro wd hwdm
        rw [h] at hwdm
        unfold markApproved at hwdm
        exact wdAmtPos_map hwd _ (by
          intro w
          by_cases hc : w.id = i ∧ w.status = WStatus.pending <;> simp [hc]) wd hwdm
  | wdrReject i =>
    simp only [applyOp]
    rcases AdminReject_cases st i with h | ⟨wd, userW, sysW, hfind, huw, hsw, h⟩
    · rw [h]
      exact ⟨hwf, hnn, hwd⟩
    · have hwdmem := List.mem_of_find?_eq_some hfind
      have hamt : 0 < wd.amount := hwd wd hwdmem
      rw [h]
      refine ⟨WFWallets_congr rfl hwf, ?_, ?_⟩
      · intro w hw hwne
        have hbase := hnn w hw hwne
        have hsys := nonsys_wallet_ne hwf hw hwne hsw
        unfold balance at hbase ⊢
        show 0 ≤ balanceE (st.entries ++
          [⟨st.nextTxId, userW, Dir.credit, wd.amount⟩,
           ⟨st.nextTxId, sysW, Dir.debit, wd.amount⟩]) w.id
        rw [balanceE_append, balanceE_pair]
        by_cases h2 : userW = w.id <;> simp [entryDelta, hsys, h2] <;> linarith
      · show ∀ x ∈ markRejected st.withdrawals i, 0 < x.amount
        exact wdAmtPos_map hwd _ (by
          intro w
          by_cases hc : w.id = i ∧ w.status = WStatus.pending <;> simp [markRejected, hc])
  | webhook ref rawStatus =>
    simp only [applyOp]
    rcases FlutterwaveWebhook_static st ref rawStatus with ⟨he, ht, hwl, hsy, hd, hn, hnw, hor⟩
    refine ⟨WFWallets_congr hwl hwf, ?_, ?_⟩
    · intro w hw hwne
      rw [hwl] at hw
      rw [hsy] at hwne
      have := hnn w hw hwne
      unfold balance at this ⊢
      rw [he]
      exact this
    · rcases hor with h | ⟨j, s, h⟩
      · intro wd hwdm
        rw [h] at hwdm
        exact hwd wd hwdm
      · intro wd hwdm
        rw [h] at hwdm
        unfold markFinal at hwdm
        exact wdAmtPos_map hwd _ (by
          intro w
          by_cases hc : w.id = j ∧ (w.status = WStatus.approved ∨ w.status = WStatus.pending) <;>
            simp [hc]) wd hwdm

/-- Invariants are preserved by any sequence of committed operations. -/
theorem run_preserves (st : St) (ops : List Op) (hwf : WFWallets st)
    (hnn : NonNegBal st) (hwd : WdAmtPos st) :
    WFWallets (run st ops) ∧ NonNegBal (run st ops) ∧ WdAmtPos (run st ops) := by
  induction ops generalizing st with
  | nil => exact ⟨hwf, hnn, hwd⟩
  | cons op ops ih =>
    rcases applyOp_preserves st op hwf hnn hwd with ⟨h1, h2, h3⟩
    exact ih (applyOp st op) h1 h2 h3

end Okies

namespace Okies

/-- C3: from any well-formed state in which every non-system wallet has a
non-negative derived balance (and stored withdrawal amounts are positive,
as the schema CHECK enforces), every sequence of committed operations
keeps every non-system wallet's derived balance non-negative; and the two
operations that debit a non-system wallet — gift and withdrawal create —
check the sender's balance under the wallet locks and fail with
`insufficient_funds`, writing nothing, whenever it is below the debited
amount. -/
theorem c3_no_negative_balance (st0 : St) (ops : List Op)
    (hwf : WFWallets st0) (hnn : NonNegBal st0) (hwd : WdAmtPos st0) :
    NonNegBal (run st0 ops) ∧
    (∀ st uid recip a k sw rcpW, ¬ (a ≤ 0 ∨ recip = "") → recip ≠ uid →
      lookupWallet st uid = some sw → lookupWallet st recip = some rcpW →
      findTxByKey st k = none → balance st sw < a →
      CreateGift st uid recip a k =
        ⟨Res.err HErr.insufficientFunds, lockWallets sw rcpW, none, st⟩) ∧
    (∀ st uid a uw sw, ¬ a ≤ 0 →
      lookupWallet st uid = some uw → lookupWallet st st.sysUserId = some sw →
      balance st uw < a →
      CreateWithdrawal st uid a =
        ⟨Res.err HErr.insufficientFunds, lockWallets uw sw, none, st⟩) := by
  refine ⟨(run_preserves st0 ops hwf hnn hwd).2.1, ?_, ?_⟩
  · intro st uid recip a k sw rcpW h0 h1 h2 h3 h4 h5
    unfold CreateGift
    rw [if_neg h0, if_neg h1, h2, h3]
    simp [h4, h5]
  · intro st uid a uw sw h0 h2 h3 h5
    unfold CreateWithdrawal
    rw [if_neg h0, h2, h3]
    simp [h5]

/-- Witness for C3 on a concrete three-step trace over `demoSt`: a gift,
a withdrawal hold and its rejection, after which all non-system balances
stay non-negative. -/
theorem c3_no_negative_balance_witness :
    NonNegBal (run demoSt
      [Op.gift "u1" "u2" 300 "k5", Op.wdrCreate "u1" 700, Op.wdrReject 0]) ∧
    (∀ st uid recip a k sw rcpW, ¬ (a ≤ 0 ∨ recip = "") → recip ≠ uid →
      lookupWallet st uid = some sw → lookupWallet st recip = some rcpW →
      findTxByKey st k = none → balance st sw < a →
      CreateGift st uid recip a k =
        ⟨Res.err HErr.insufficientFunds, lockWallets sw rcpW, none, st⟩) ∧
    (∀ st uid a uw sw, ¬ a ≤ 0 →
      lookupWallet st uid = some uw → lookupWallet st st.sysUserId = some sw →
      balance st uw < a →
      CreateWithdrawal st uid a =
        ⟨Res.err HErr.insufficientFunds, lockWallets uw sw, none, st⟩) :=
  c3_no_negative_balance demoSt
    [Op.gift "u1" "u2" 300 "k5", Op.wdrCreate "u1" 700, Op.wdrReject 0]
    ⟨by decide, by decide⟩ (by unfold NonNegBal; decide) (by unfold WdAmtPos; decide)

end Okies

namespace Okies

/-! ## Double-entry invariant (C1) -/

/-- The ledger entries of one transaction
(`SELECT * FROM ledger_entries WHERE tx_id=$1`). -/
def entriesOf (st : St) (tid : Nat) : List LedgerEntry :=
  st.entries.filter (fun e => decide (e.txId = tid))

/-- A transaction's entry list is one debit and one credit of the
transaction's amount on two distinct wallets (in either insert order). -/
def balancedPair (t : Transaction) (es : List LedgerEntry) : Prop :=
  ∃ dw cw, dw ≠ cw ∧
    (es = [⟨t.id, dw, Dir.debit, t.amount⟩, ⟨t.id, cw, Dir.credit, t.amount⟩] ∨
     es = [⟨t.id, cw, Dir.credit, t.amount⟩, ⟨t.id, dw, Dir.debit, t.amount⟩])

/-- `sum(entries where tx, direction=credit)`. -/
def creditSum (st : St) (tid : Nat) : Int :=
  (((entriesOf st tid).filter (fun e => decide (e.dir = Dir.credit))).map
    (fun e => e.amount)).sum

/-- `sum(entries where tx, direction=debit)`. -/
def debitSum (st : St) (tid : Nat) : Int :=
  (((entriesOf st tid).filter (fun e => decide (e.dir = Dir.debit))).map
    (fun e => e.amount)).sum

/-- Inductive ledger invariant: ids below the fresh-id counter, every
transaction shaped as a balanced two-entry pair, and withdrawal rows
belonging to non-system users (the system account cannot authenticate —
migration 0006 gives it an empty password hash, which argon2
verification always rejects, so no JWT is ever issued for it). -/
structure LedgerInv (st : St) : Prop where
  txFresh : ∀ t ∈ st.transactions, t.id < st.nextTxId
  enFresh : ∀ e ∈ st.entries, e.txId < st.nextTxId
  shape : ∀ t ∈ st.transactions, balancedPair t (entriesOf st t.id)
  wdUser : ∀ wd ∈ st.withdrawals, wd.userId ≠ st.sysUserId

/-- Authenticated-caller side condition: `CreateWithdrawal` is reached
only with a JWT-authenticated user, which the system account can never
be. -/
def AuthOK (sysId : String) : Op → Prop
  | Op.wdrCreate uid _ => uid ≠ sysId
  | _ => True

theorem filter_pair_fresh {es : List LedgerEntry} {n : Nat}
    (hfr : ∀ e ∈ es, e.txId < n) (e1 e2 : LedgerEntry)
    (h1 : e1.txId = n) (h2 : e2.txId = n) :
    ((es ++ [e1, e2]).filter (fun e => decide (e.txId = n)) = [e1, e2]) ∧
    (∀ m, m < n →
      (es ++ [e1, e2]).filter (fun e => decide (e.txId = m)) =
        es.filter (fun e => decide (e.txId = m))) := by
  constructor
  · rw [List.filter_append]
    have hnil : es.filter (fun e => decide (e.txId = n)) = [] := by
      rw [List.filter_eq_nil_iff]
      intro e he
      have := hfr e he
      simp only [decide_eq_true_eq]
      omega
    rw [hnil]
    simp [h1, h2]
  · intro m hm
    rw [List.filter_append]
    have hnil : [e1, e2].filter (fun e => decide (e.txId = m)) = [] := by
      simp only [List.filter, h1, h2]
      have : ¬ n = m := by omega
      simp [this]
    rw [hnil, List.append_nil]

theorem balancedPair_mk (n : Nat) (key : Option String) (kind : String) (a : Int)
    (w1 w2 : String) (d1 d2 : Dir) (hne : w1 ≠ w2)
    (hdir : (d1 = Dir.debit ∧ d2 = Dir.credit) ∨ (d1 = Dir.credit ∧ d2 = Dir.debit)) :
    balancedPair ⟨n, key, kind, a⟩ [⟨n, w1, d1, a⟩, ⟨n, w2, d2, a⟩] := by
  rcases hdir with ⟨hd1, hd2⟩ | ⟨hd1, hd2⟩
  · exact ⟨w1, w2, hne, Or.inl (by rw [hd1, hd2])⟩
  · exact ⟨w2, w1, Ne.symm hne, Or.inr (by rw [hd1, hd2])⟩

theorem wdUser_map {ws : List Withdrawal} {sys : String} (h : ∀ wd ∈ ws, wd.userId ≠ sys)
    (g : Withdrawal → Withdrawal) (hg : ∀ w, (g w).userId = w.userId) :
    ∀ wd ∈ ws.map g, wd.userId ≠ sys := by
  intro wd hwd
  rcases List.mem_map.mp hwd with ⟨x, hx, rfl⟩
  rw [hg]
  exact h x hx

/-- A state that appends one transaction and its balanced entry pair
preserves the ledger invariant. -/
theorem ledgerInv_post_pair {st st' : St} (hinv : LedgerInv st)
    (key : Option String) (kind : String) (a : Int) (w1 w2 : String) (d1 d2 : Dir)
    (hne : w1 ≠ w2)
    (hdir : (d1 = Dir.debit ∧ d2 = Dir.credit) ∨ (d1 = Dir.credit ∧ d2 = Dir.debit))
    (htx : st'.transactions = st.transactions ++ [⟨st.nextTxId, key, kind, a⟩])
    (hen : st'.entries = st.entries ++
      [⟨st.nextTxId, w1, d1, a⟩, ⟨st.nextTxId, w2, d2, a⟩])
    (hnext : st'.nextTxId = st.nextTxId + 1)
    (hsys : st'.sysUserId = st.sysUserId)
    (hwds : ∀ wd ∈ st'.withdrawals, wd.userId ≠ st.sysUserId) :
    LedgerInv st' := by
  have hpair := filter_pair_fresh hinv.enFresh
    ⟨st.nextTxId, w1, d1, a⟩ ⟨st.nextTxId, w2, d2, a⟩ rfl rfl
  refine ⟨?_, ?_, ?_, ?_⟩
  · intro t ht
    rw [htx] at ht
    rw [hnext]
    rcases List.mem_append.mp ht with h | h
    · have := hinv.txFresh t h
      omega
    · rcases List.mem_singleton.mp h with rfl
      simp
  · intro e he
    rw [hen] at he
    rw [hnext]
    rcases List.mem_append.mp he with h | h
    · have := hinv.enFresh e h
      omega
    · rcases List.mem_cons.mp h with rfl | h
      · simp
      · rcases List.mem_singleton.mp h with rfl
        simp
  · intro t ht
    rw [htx] at ht
    rcases List.mem_append.mp ht with h | h
    · have hsh := hinv.shape t h
      have hm : t.id < st.nextTxId := hinv.txFresh t h
      unfold entriesOf at hsh ⊢
      rw [hen, hpair.2 t.id hm]
      exact hsh
    · rcases List.mem_singleton.mp h with rfl
      unfold entriesOf
      rw [hen]
      show balancedPair ⟨st.nextTxId, key, kind, a⟩ _
      rw [hpair.1]
      exact balancedPair_mk st.nextTxId key kind a w1 w2 d1 d2 hne hdir
  · intro wd hwd
    rw [hsys]
    exact hwds wd hwd

/-- A state that keeps the ledger untouched preserves the invariant. -/
theorem ledgerInv_static {st st' : St} (hinv : LedgerInv st)
    (htx : st'.transactions = st.transactions) (hen : st'.entries = st.entries)
    (hnext : st'.nextTxId = st.nextTxId) (hsys : st'.sysUserId = st.sysUserId)
    (hwds : ∀ wd ∈ st'.withdrawals, wd.userId ≠ st.sysUserId) :
    LedgerInv st' := by
  refine ⟨?_, ?_, ?_, ?_⟩
  · intro t ht
    rw [htx] at ht
    rw [hnext]
    exact hinv.txFresh t ht
  · intro e he
    rw [hen] at he
    rw [hnext]
    exact hinv.enFresh e he
  · intro t ht
    rw [htx] at ht
    have hsh := hinv.shape t ht
    unfold entriesOf at hsh ⊢
    rw [hen]
    exact hsh
  · intro wd hwd
    rw [hsys]
    exact hwds wd hwd

end Okies

namespace Okies

/-- One committed, authenticated operation preserves the ledger
invariant. -/
theorem applyOp_ledgerInv (st : St) (op : Op) (hwf : WFWallets st)
    (hinv : LedgerInv st) (hop : AuthOK st.sysUserId op) :
    LedgerInv (applyOp st op) := by
  cases op with
  | gift uid recip a k =>
    simp only [applyOp]
    rcases CreateGift_cases st uid recip a k with h |
      ⟨sw, rcpW, hsw, hrw, hneq, hpos, hbal, h⟩
    · rw [h]
      exact hinv
    · have hne : sw ≠ rcpW := by
        intro heq
        exact hneq (lookupWallet_inj hwf hrw (by rw [← heq]; exact hsw))
      exact ledgerInv_post_pair hinv (some k) "gift" a sw rcpW Dir.debit Dir.credit hne
        (Or.inl ⟨rfl, rfl⟩) (by rw [h]) (by rw [h]) (by rw [h]) (by rw [h])
        (by rw [h]; exact hinv.wdUser)
  | topup target a k =>
    simp only [applyOp]
    rcases AdminTopup_cases st target a k with h | ⟨uw, sw, huw, hsw, hne, hpos, h⟩
    · rw [h]
      exact hinv
    · exact ledgerInv_post_pair hinv (some k) "topup" a sw uw Dir.debit Dir.credit
        (fun heq => hne (by rw [heq])) (Or.inl ⟨rfl, rfl⟩)
        (by rw [h]) (by rw [h]) (by rw [h]) (by rw [h])
        (by rw [h]; exact hinv.wdUser)
  | wdrCreate uid a =>
    simp only [applyOp]
    rcases CreateWithdrawal_cases st uid a with h | ⟨uw, sw, huw, hsw, hpos, hbal, h⟩
    · rw [h]
      exact hinv
    · have huid : uid ≠ st.sysUserId := hop
      have hne : uw ≠ sw := by
        intro heq
        exact huid (lookupWallet_inj hwf huw (by rw [heq]; exact hsw))
      refine ledgerInv_post_pair hinv none "withdrawal" a uw sw Dir.debit Dir.credit hne
        (Or.inl ⟨rfl, rfl⟩) (by rw [h]) (by rw [h]) (by rw [h]) (by rw [h]) ?_
      rw [h]
      intro wd hwd
      rcases List.mem_append.mp hwd with hmem | hmem
      · exact hinv.wdUser wd hmem
      · rcases List.mem_singleton.mp hmem with rfl
        exact huid
  | wdrApprove i ok =>
    simp only [applyOp]
    rcases AdminApprove_static st i ok with ⟨he, ht, hwl, hsy, hd, hn, hnw, hor⟩
    refine ledgerInv_static hinv ht he hn hsy ?_
    rcases hor with h | h
    · rw [h]
      exact hinv.wdUser
    · rw [h]
      unfold markApproved
      exact wdUser_map hinv.wdUser _ (by
        intro w
        by_cases hc : w.id = i ∧ w.status = WStatus.pending <;> simp [hc])
  | wdrReject i =>
    simp only [applyOp]
    rcases AdminReject_cases st i with h | ⟨wd, userW, sysW, hfind, huw, hsw, h⟩
    · rw [h]
      exact hinv
    · have hwdmem := List.mem_of_find?_eq_some hfind
      have huser : wd.userId ≠ st.sysUserId := hinv.wdUser wd hwdmem
      have hne : userW ≠ sysW := by
        intro heq
        exact huser (lookupWallet_inj hwf huw (by rw [heq]; exact hsw))
      refine ledgerInv_post_pair hinv none "withdrawal" wd.amount userW sysW
        Dir.credit Dir.debit hne (Or.inr ⟨rfl, rfl⟩)
        (by rw [h]) (by rw [h]) (by rw [h]) (by rw [h]) ?_
      rw [h]
      unfold markRejected
      exact wdUser_map hinv.wdUser _ (by
        intro w
        by_cases hc : w.id = i ∧ w.status = WStatus.pending <;> simp [hc])
  | webhook ref rawStatus =>
    simp only [applyOp]
    rcases FlutterwaveWebhook_static st ref rawStatus with ⟨he, ht, hwl, hsy, hd, hn, hnw, hor⟩
    refine ledgerInv_static hinv ht he hn hsy ?_
    rcases hor with h | ⟨j, s, h⟩
    · rw [h]
      exact hinv.wdUser
    · rw [h]
      unfold markFinal
      exact wdUser_map hinv.wdUser _ (by
        intro w
        by_cases hc : w.id = j ∧ (w.status = WStatus.approved ∨ w.status = WStatus.pending) <;>
          simp [hc])

theorem applyOp_wallets_sys (st : St) (op : Op) :
    (applyOp st op).wallets = st.wallets ∧ (applyOp st op).sysUserId = st.sysUserId := by
  cases op with
  | gift uid recip a k =>
    simp only [applyOp]
    rcases CreateGift_cases st uid recip a k with h | ⟨sw, rcpW, _, _, _, _, _, h⟩ <;>
      rw [h] <;> exact ⟨rfl, rfl⟩
  | topup target a k =>
    simp only [applyOp]
    rcases AdminTopup_cases st target a k with h | ⟨uw, sw, _, _, _, _, h⟩ <;>
      rw [h] <;> exact ⟨rfl, rfl⟩
  | wdrCreate uid a =>
    simp only [applyOp]
    rcases CreateWithdrawal_cases st uid a with h | ⟨uw, sw, _, _, _, _, h⟩ <;>
      rw [h] <;> exact ⟨rfl, rfl⟩
  | wdrApprove i ok =>
    simp only [applyOp]
    rcases AdminApprove_static st i ok with ⟨_, _, hwl, hsy, _⟩
    exact ⟨hwl, hsy⟩
  | wdrReject i =>
    simp only [applyOp]
    rcases AdminReject_cases st i with h | ⟨wd, userW, sysW, _, _, _, h⟩ <;>
      rw [h] <;> exact ⟨rfl, rfl⟩
  | webhook ref rawStatus =>
    simp only [applyOp]
    rcases FlutterwaveWebhook_static st ref rawStatus with ⟨_, _, hwl, hsy, _⟩
    exact ⟨hwl, hsy⟩

/-- The ledger invariant holds after any authenticated trace. -/
theorem ledgerInv_run (st : St) (ops : List Op) (hwf : WFWallets st)
    (hinv : LedgerInv st) (hauth : ∀ op ∈ ops, AuthOK st.sysUserId op) :
    LedgerInv (run st ops) := by
  induction ops generalizing st with
  | nil => exact hinv
  | cons op ops ih =>
    rcases applyOp_wallets_sys st op with ⟨hwl, hsy⟩
    exact ih (applyOp st op)
      (WFWallets_congr hwl hwf)
      (applyOp_ledgerInv st op hwf hinv (hauth op (List.mem_cons_self op ops)))
      (by
        intro o ho
        rw [hsy]
        exact hauth o (List.mem_cons_of_mem op ho))

end Okies

namespace Okies

/-- C1: starting from any well-formed state satisfying the ledger
invariant, after any sequence of committed, authenticated operations
every transaction has exactly two ledger entries — one debit and one
credit, both of the transaction's amount, on two distinct wallets — so
for every transaction the sum of credit amounts equals the sum of debit
amounts. -/
theorem c1_double_entry (st0 : St) (ops : List Op) (hwf : WFWallets st0)
    (hinv : LedgerInv st0) (hauth : ∀ op ∈ ops, AuthOK st0.sysUserId op) :
    ∀ t ∈ (run st0 ops).transactions,
      (entriesOf (run st0 ops) t.id).length = 2 ∧
      (∀ e ∈ entriesOf (run st0 ops) t.id, e.txId = t.id ∧ e.amount = t.amount) ∧
      ((entriesOf (run st0 ops) t.id).filter
        (fun e => decide (e.dir = Dir.debit))).length = 1 ∧
      ((entriesOf (run st0 ops) t.id).filter
        (fun e => decide (e.dir = Dir.credit))).length = 1 ∧
      (∃ e1 ∈ entriesOf (run st0 ops) t.id, ∃ e2 ∈ entriesOf (run st0 ops) t.id,
        e1.dir = Dir.debit ∧ e2.dir = Dir.credit ∧ e1.walletId ≠ e2.walletId) ∧
      creditSum (run st0 ops) t.id = debitSum (run st0 ops) t.id := by
  intro t ht
  have hsh := (ledgerInv_run st0 ops hwf hinv hauth).shape t ht
  unfold creditSum debitSum
  rcases hsh with ⟨dw, cw, hne, hes | hes⟩
  · rw [hes]
    refine ⟨by simp, ?_, by simp, by simp, ?_, by simp⟩
    · intro e he
      rcases List.mem_cons.mp he with rfl | he
      · exact ⟨rfl, rfl⟩
      · rcases List.mem_singleton.mp he with rfl
        exact ⟨rfl, rfl⟩
    · exact ⟨⟨t.id, dw, Dir.debit, t.amount⟩, by simp,
        ⟨t.id, cw, Dir.credit, t.amount⟩, by simp, rfl, rfl, hne⟩
  · rw [hes]
    refine ⟨by simp, ?_, by simp, by simp, ?_, by simp⟩
    · intro e he
      rcases List.mem_cons.mp he with rfl | he
      · exact ⟨rfl, rfl⟩
      · rcases List.mem_singleton.mp he with rfl
        exact ⟨rfl, rfl⟩
    · exact ⟨⟨t.id, dw, Dir.debit, t.amount⟩, by simp,
        ⟨t.id, cw, Dir.credit, t.amount⟩, by simp, rfl, rfl, hne⟩

/-- Witness for C1: on a concrete four-step trace over `demoSt` (gift,
top-up, withdrawal hold, reject), the reject's reversal transaction
(id 4, amount 500) has exactly one debit and one credit entry of 500 on
two distinct wallets, with equal credit and debit sums. -/
theorem c1_double_entry_witness :
    (entriesOf (run demoSt
      [Op.gift "u1" "u2" 300 "k5", Op.topup "u2" 1000 "k6",
       Op.wdrCreate "u1" 500, Op.wdrReject 0]) 4).length = 2 ∧
    (∀ e ∈ entriesOf (run demoSt
      [Op.gift "u1" "u2" 300 "k5", Op.topup "u2" 1000 "k6",
       Op.wdrCreate "u1" 500, Op.wdrReject 0]) 4,
      e.txId = 4 ∧ e.amount = 500) ∧
    ((entriesOf (run demoSt
      [Op.gift "u1" "u2" 300 "k5", Op.topup "u2" 1000 "k6",
       Op.wdrCreate "u1" 500, Op.wdrReject 0]) 4).filter
      (fun e => decide (e.dir = Dir.debit))).length = 1 ∧
    ((entriesOf (run demoSt
      [Op.gift "u1" "u2" 300 "k5", Op.topup "u2" 1000 "k6",
       Op.wdrCreate "u1" 500, Op.wdrReject 0]) 4).filter
      (fun e => decide (e.dir = Dir.credit))).length = 1 ∧
    (∃ e1 ∈ entriesOf (run demoSt
      [Op.gift "u1" "u2" 300 "k5", Op.topup "u2" 1000 "k6",
       Op.wdrCreate "u1" 500, Op.wdrReject 0]) 4,
     ∃ e2 ∈ entriesOf (run demoSt
      [Op.gift "u1" "u2" 300 "k5", Op.topup "u2" 1000 "k6",
       Op.wdrCreate "u1" 500, Op.wdrReject 0]) 4,
      e1.dir = Dir.debit ∧ e2.dir = Dir.credit ∧ e1.walletId ≠ e2.walletId) ∧
    creditSum (run demoSt
      [Op.gift "u1" "u2" 300 "k5", Op.topup "u2" 1000 "k6",
       Op.wdrCreate "u1" 500, Op.wdrReject 0]) 4 =
    debitSum (run demoSt
      [Op.gift "u1" "u2" 300 "k5", Op.topup "u2" 1000 "k6",
       Op.wdrCreate "u1" 500, Op.wdrReject 0]) 4 :=
  c1_double_entry demoSt
    [Op.gift "u1" "u2" 300 "k5", Op.topup "u2" 1000 "k6",
     Op.wdrCreate "u1" 500, Op.wdrReject 0]
    ⟨by decide, by decide⟩
    (by
      refine ⟨?_, ?_, ?_, ?_⟩
      · intro t ht
        fin_cases ht
        decide
      · intro e he
        fin_cases he <;> decide
      · intro t ht
        fin_cases ht
        exact ⟨"wz", "wa", by decide, Or.inl (by decide)⟩
      · intro wd hwd
        simp [demoSt] at hwd)
    (by
      intro op hop
      fin_cases hop <;> first | trivial | (unfold AuthOK; decide))
    ⟨4, none, "withdrawal", 500⟩ (by decide)

end Okies
